import Mathlib

/-!
# Billing engine (bms): loan scheduling, billing cycle, delinquency, payments

A shallow embedding of `internal/usecase/loan_usecase.go`,
`internal/repository/loan_repository.go` and `pkg/domain/models.go`.

Modelling conventions.

* An amount is a finite `float64`, carried as the rational number it denotes
  (`Money = ℚ`); infinities and NaN are outside the model.  Comparisons of
  finite values are exact.  The subtractions of `MakePayment` and of the
  `UPDATE loans` statement round, so they are arguments of the model (`sub`,
  `dbSub`); `f64sub` is the IEEE 754 binary64 subtraction.  `CreateLoan`
  computes in exact rationals, as the statements about it stipulate; division
  by zero (only for `term = 0`) yields `0` in `ℚ` where Go yields `±Inf`/`NaN`,
  and every statement about amounts takes `term ≥ 1`.
* `time.Time` is an instant counted in nanoseconds.  `AddDate(0, 0, d)` moves
  the calendar date in the zone of the time and keeps the wall clock; how far
  the instant moves depends on the zone, so it is an argument of the model
  (`addDays`); `fixedOffsetAddDays` is the function for a zone with a fixed
  offset, such as UTC.
* The relational store is four tables, each a list of rows in insertion
  order.  The SQL schema is not part of the repository, so the tables carry no
  key or uniqueness constraint of their own; a statement rejected by the
  database is a driver error, supplied by the fault arguments below.
* Everything the environment decides is an explicit argument: clock reads,
  generated UUIDs, driver errors of repository calls, notifier results.
* Every repository call is appended to `World.calls`, so that "which calls
  were made" is observable next to "what was stored".
* A Go runtime panic is the result `Run.panic`.
-/

namespace Bms

/-! ## Domain model (`pkg/domain/models.go`) -/

/-- An instant of `time.Time`, in nanoseconds. -/
abbrev Time := Int

/-- A Go `error`, identified by its message. -/
abbrev Error := String

/-- A `float64` amount, taken as an exact rational. -/
abbrev Money := ℚ

/-- Nanoseconds in one day. -/
def nsPerDay : Int := 86400000000000

/-- Go `t.AddDate(0, 0, days)` for a time in a zone with a fixed offset (UTC
for instance): the instant moves by `days` times 24 hours.  In a zone with
daylight saving the instant may move by an hour more or less. -/
def fixedOffsetAddDays (t : Time) (days : Int) : Time := t + days * nsPerDay

/-! ### IEEE 754 binary64 rounding of a rational -/

/-- Search for the binary exponent of `a > 0`: the largest `e`, not below
`e - fuel`, with `p = 2 ^ e ≤ a`. -/
def expFrom (a : ℚ) : Nat → Int → ℚ → Int
  | 0, e, _ => e
  | fuel + 1, e, p => if p ≤ a then e else expFrom a fuel (e - 1) (p / 2)

/-- Nearest integer, ties to the even one. -/
def roundHalfEven (q : ℚ) : Int :=
  let f := ⌊q⌋
  if q - f < 1 / 2 then f
  else if 1 / 2 < q - f then f + 1
  else if f % 2 = 0 then f else f + 1

/-- Round to nearest binary64 value, ties to even: 53 significant bits,
exponents from -1022 (subnormals included) up; overflow to infinity is outside
the model. -/
def f64 (x : ℚ) : ℚ :=
  if x = 0 then 0 else
  let e := expFrom |x| 2045 1023 ((2 : ℚ) ^ 1023)
  let ulp := (2 : ℚ) ^ (e - 52)
  (roundHalfEven (x / ulp) : ℚ) * ulp

/-- Subtraction of `float64` values. -/
def f64sub (a b : Money) : Money := f64 (a - b)

/-- Exact subtraction. -/
def exactSub (a b : Money) : Money := a - b

/-- Go zero value of `time.Time` (January 1, year 1, 00:00 UTC). -/
def zeroTime : Time := -62135596800000000000

inductive LoanStatus where
  | Active
  | Closed
  deriving DecidableEq, Repr

inductive TermType where
  | Weekly
  deriving DecidableEq, Repr

inductive InstallmentStatus where
  | Pending
  | Paid
  deriving DecidableEq, Repr

inductive BillingStatus where
  | PendingBilling
  | BilledBilling
  | PaidBilling
  deriving DecidableEq, Repr

structure Loan where
  ID : String
  CustomerID : String
  PrincipalAmount : Money
  InterestRate : Money
  Term : Int
  TermType : TermType
  TermPayment : Money
  OutstandingAmount : Money
  IsDelinquent : Bool
  Status : LoanStatus
  CreationDate : Time
  deriving DecidableEq

structure Installment where
  ID : String
  LoanID : String
  TermNumber : Int
  AmountDue : Money
  DueDate : Time
  BilledDate : Time
  Status : InstallmentStatus
  deriving DecidableEq

structure Billing where
  ID : String
  InstallmentID : String
  Amount : Money
  BillingDate : Time
  Status : BillingStatus
  deriving DecidableEq

structure Payment where
  ID : String
  BillingID : String
  AmountPaid : Money
  PaymentDate : Time
  deriving DecidableEq

/-! ## Store and call log -/

/-- A row of table `installments`.  Column `billed_date` is nullable: the
`INSERT` of `SaveLoan` does not name it. -/
structure InstallmentRow where
  id : String
  loan_id : String
  term_number : Int
  amount_due : Money
  due_date : Time
  billed_date : Option Time
  status : InstallmentStatus
  deriving DecidableEq

/-- The four tables, rows in insertion order. -/
structure Store where
  loans : List Loan
  installments : List InstallmentRow
  billings : List Billing
  payments : List Payment
  deriving DecidableEq

/-- A call on the `LoanRepository` interface, with its arguments. -/
inductive Call where
  | SaveLoan (loan : Loan) (schedule : List Installment)
  | FindLoanByID (id : String)
  | FindDueInstallments
  | GetInstallmentSchedule (loanID : String)
  | UpdateDelinquency (loanID : String) (isDelinquent : Bool)
  | SaveBilling (billing : Billing) (installmentID : String)
  | FindUnpaidBillings (loanID : String)
  | SavePaymentAndUpdateState (payment : Payment) (bill : Billing)
  | UpdateBillingStatus (billing : Billing)
  deriving DecidableEq

/-- The store together with the log of repository calls made so far. -/
structure World where
  store : Store
  calls : List Call
  deriving DecidableEq

/-- Append a call to the log. -/
def World.log (w : World) (c : Call) : World :=
  { w with calls := w.calls ++ [c] }

/-- Result of a Go function that may panic. -/
inductive Run (α : Type) where
  | done (a : α)
  | panic
  deriving DecidableEq

/-! ## Repository (`internal/repository/loan_repository.go`) -/

/-- Row inserted for an installment by `SaveLoan`: the six named columns come
from the struct, `billed_date` gets the column default `billedDefault`, which
belongs to the schema and is a parameter here. -/
def insertedRow (billedDefault : Installment → Option Time) (inst : Installment) :
    InstallmentRow :=
  { id := inst.ID, loan_id := inst.LoanID, term_number := inst.TermNumber,
    amount_due := inst.AmountDue, due_date := inst.DueDate,
    billed_date := billedDefault inst, status := inst.Status }

/-- `SaveLoan`: one transaction inserting the loan and every installment.
`fault` is the first driver error of `Begin`, an `Exec`, `Prepare` or `Commit`,
if any; the method then rolls back and returns it. -/
def SaveLoan (billedDefault : Installment → Option Time) (fault : Option Error)
    (loan : Loan) (schedule : List Installment) (w : World) : Option Error × World :=
  let w1 := w.log (Call.SaveLoan loan schedule)
  match fault with
  | some e => (some e, w1)
  | none =>
    (none, { w1 with store := { w1.store with
      loans := w1.store.loans ++ [loan],
      installments := w1.store.installments ++ schedule.map (insertedRow billedDefault) } })

/-- `FindLoanByID`: first row of `loans` with the id; "loan not found" when
there is none. -/
def FindLoanByID (fault : Option Error) (id : String) (w : World) :
    Except Error Loan × World :=
  let w1 := w.log (Call.FindLoanByID id)
  match fault with
  | some e => (Except.error e, w1)
  | none =>
    match w.store.loans.find? (fun l => l.ID = id) with
    | none => (Except.error "loan not found", w1)
    | some l => (Except.ok l, w1)

/-- Rows selected by `FindDueInstallments`:
`status = 'PENDING' AND billed_date = $1` with `$1 = time.Now()`. -/
def dueRows (s : Store) (now : Time) : List InstallmentRow :=
  s.installments.filter (fun r => r.status = InstallmentStatus.Pending ∧ r.billed_date = some now)

/-- `rows.Scan` of the seven columns of a due row (its `billed_date` is `now`). -/
def scanDue (now : Time) (r : InstallmentRow) : Installment :=
  { ID := r.id, LoanID := r.loan_id, TermNumber := r.term_number, AmountDue := r.amount_due,
    DueDate := r.due_date, BilledDate := now, Status := r.status }

/-- Result list of `FindDueInstallments` when the query succeeds. -/
def dueInstallments (s : Store) (now : Time) : List Installment :=
  (dueRows s now).map (scanDue now)

/-- `FindDueInstallments`; `now` is its own read of `time.Now()`. -/
def FindDueInstallments (fault : Option Error) (now : Time) (w : World) :
    Except Error (List Installment) × World :=
  let w1 := w.log Call.FindDueInstallments
  match fault with
  | some e => (Except.error e, w1)
  | none => (Except.ok (dueInstallments w.store now), w1)

/-- `rows.Scan` of `GetInstallmentSchedule`: six columns, `BilledDate` keeps
its zero value. -/
def scanSchedule (r : InstallmentRow) : Installment :=
  { ID := r.id, LoanID := r.loan_id, TermNumber := r.term_number, AmountDue := r.amount_due,
    DueDate := r.due_date, BilledDate := zeroTime, Status := r.status }

/-- Order of `ORDER BY term_number ASC` and of the `sort.Slice` comparison. -/
def termLE (a b : Installment) : Prop := a.TermNumber ≤ b.TermNumber

instance : DecidableRel termLE := fun a b => inferInstanceAs (Decidable (a.TermNumber ≤ b.TermNumber))

/-- Rows of a loan in table order, scanned. -/
def loanRows (s : Store) (loanID : String) : List Installment :=
  (s.installments.filter (fun r => r.loan_id = loanID)).map scanSchedule

/-- Result list of `GetInstallmentSchedule` when the query succeeds: the rows
of the loan ordered by term number (rows with equal term numbers keep table
order). -/
def installmentSchedule (s : Store) (loanID : String) : List Installment :=
  (loanRows s loanID).insertionSort termLE

/-- `GetInstallmentSchedule`. -/
def GetInstallmentSchedule (fault : Option Error) (loanID : String) (w : World) :
    Except Error (List Installment) × World :=
  let w1 := w.log (Call.GetInstallmentSchedule loanID)
  match fault with
  | some e => (Except.error e, w1)
  | none => (Except.ok (installmentSchedule w.store loanID), w1)

/-- Effect of `UPDATE loans SET is_delinquent = $1 WHERE id = $2`. -/
def setDelinquent (loanID : String) (isDelinquent : Bool) (l : Loan) : Loan :=
  if l.ID = loanID then { l with IsDelinquent := isDelinquent } else l

/-- `UpdateDelinquency`. -/
def UpdateDelinquency (fault : Option Error) (loanID : String) (isDelinquent : Bool)
    (w : World) : Option Error × World :=
  let w1 := w.log (Call.UpdateDelinquency loanID isDelinquent)
  match fault with
  | some e => (some e, w1)
  | none =>
    (none, { w1 with store := { w1.store with
      loans := w1.store.loans.map (setDelinquent loanID isDelinquent) } })

/-- `SaveBilling`: one transaction inserting the billing row.  The argument
`installmentID` is not used by the method. -/
def SaveBilling (fault : Option Error) (billing : Billing) (installmentID : String)
    (w : World) : Option Error × World :=
  let w1 := w.log (Call.SaveBilling billing installmentID)
  match fault with
  | some e => (some e, w1)
  | none =>
    (none, { w1 with store := { w1.store with billings := w1.store.billings ++ [billing] } })

/-- Effect of setting the status of the billing rows with the given id. -/
def setBillingStatus (id : String) (st : BillingStatus) (b : Billing) : Billing :=
  if b.ID = id then { b with Status := st } else b

/-- `UpdateBillingStatus`.  The SQL text of the source is malformed; the
method is taken to do what its name and arguments say, store the status of
the billing passed in on the rows with its id, and `fault` is the error of the
statement, if any. -/
def UpdateBillingStatus (fault : Option Error) (billing : Billing) (w : World) :
    Option Error × World :=
  let w1 := w.log (Call.UpdateBillingStatus billing)
  match fault with
  | some e => (some e, w1)
  | none =>
    (none, { w1 with store := { w1.store with
      billings := w1.store.billings.map (setBillingStatus billing.ID billing.Status) } })

/-- Rows of `billings b JOIN installments i ON b.installment_id = i.id
WHERE i.loan_id = $1 AND b.status != 'PAID'`, each with `i.term_number`. -/
def unpaidJoin (s : Store) (loanID : String) : List (Billing × Int) :=
  (s.billings.filter (fun b => b.Status ≠ BillingStatus.PaidBilling)).flatMap (fun b =>
    (s.installments.filter (fun i => i.id = b.InstallmentID ∧ i.loan_id = loanID)).map
      (fun i => (b, i.term_number)))

/-- Order of `ORDER BY i.term_number ASC` on the joined rows. -/
def joinLE (a b : Billing × Int) : Prop := a.2 ≤ b.2

instance : DecidableRel joinLE := fun a b => inferInstanceAs (Decidable (a.2 ≤ b.2))

/-- Result list of `FindUnpaidBillings` when the query succeeds: the joined
rows ordered by term number (rows with equal term numbers keep the order of
the join). -/
def unpaidBillings (s : Store) (loanID : String) : List Billing :=
  ((unpaidJoin s loanID).insertionSort joinLE).map Prod.fst

/-- `FindUnpaidBillings`. -/
def FindUnpaidBillings (fault : Option Error) (loanID : String) (w : World) :
    Except Error (List Billing) × World :=
  let w1 := w.log (Call.FindUnpaidBillings loanID)
  match fault with
  | some e => (Except.error e, w1)
  | none => (Except.ok (unpaidBillings w.store loanID), w1)

/-- Driver errors of the statements of `SavePaymentAndUpdateState`, in program
order. -/
structure PayFaults where
  begin : Option Error
  insertPayment : Option Error
  updateBilling : Option Error
  updateInstallment : Option Error
  updateLoan : Option Error
  commit : Option Error

/-- No driver error. -/
def PayFaults.none : PayFaults :=
  { begin := Option.none, insertPayment := Option.none, updateBilling := Option.none,
    updateInstallment := Option.none, updateLoan := Option.none, commit := Option.none }

/-- Rows of `installments` with the given id: the rows of
`UPDATE installments ... WHERE id = $1` and of the sub-select
`SELECT loan_id FROM installments WHERE id = $2`. -/
def installmentsWithID (s : Store) (id : String) : List InstallmentRow :=
  s.installments.filter (fun r => r.id = id)

/-- The error `SavePaymentAndUpdateState` returns, given the driver errors and
the number of installment rows with the billing's installment id: statements
run in order; zero affected rows after statement 3 is "installment not
found"; a sub-select with more than one row fails statement 4. -/
def payStepError (f : PayFaults) (rows : Nat) : Option Error :=
  match f.begin with
  | some e => some e
  | Option.none =>
  match f.insertPayment with
  | some e => some e
  | Option.none =>
  match f.updateBilling with
  | some e => some e
  | Option.none =>
  match f.updateInstallment with
  | some e => some e
  | Option.none =>
  if rows = 0 then some "installment not found for billing update" else
  match f.updateLoan with
  | some e => some e
  | Option.none =>
  if 2 ≤ rows then some "more than one row returned by a subquery used as an expression" else
  f.commit

/-- Effect of `UPDATE installments SET status = 'PAID' WHERE id = $1`. -/
def markInstallmentPaid (id : String) (r : InstallmentRow) : InstallmentRow :=
  if r.id = id then { r with status := InstallmentStatus.Paid } else r

/-- Effect of `UPDATE loans SET outstanding_amount = outstanding_amount - $1
WHERE id = ...` for a sub-select yielding `loanIDs` (at most one value).
`dbSub` is the subtraction the database performs on the column; its rounding
depends on the column type, which the schema fixes. -/
def debitLoan (dbSub : Money → Money → Money) (loanIDs : List String) (amount : Money)
    (l : Loan) : Loan :=
  if l.ID ∈ loanIDs then { l with OutstandingAmount := dbSub l.OutstandingAmount amount } else l

/-- The store after the four statements of `SavePaymentAndUpdateState`
committed. -/
def commitPayment (dbSub : Money → Money → Money) (payment : Payment) (bill : Billing)
    (s : Store) : Store :=
  { payments := s.payments ++ [payment],
    billings := s.billings.map (setBillingStatus bill.ID BillingStatus.PaidBilling),
    installments := s.installments.map (markInstallmentPaid bill.InstallmentID),
    loans := s.loans.map
      (debitLoan dbSub ((installmentsWithID s bill.InstallmentID).map (fun r => r.loan_id))
        bill.Amount) }

/-- `SavePaymentAndUpdateState`: the four statements commit together or, on
any error, nothing is stored. -/
def SavePaymentAndUpdateState (dbSub : Money → Money → Money) (f : PayFaults)
    (payment : Payment) (bill : Billing) (w : World) : Option Error × World :=
  let w1 := w.log (Call.SavePaymentAndUpdateState payment bill)
  match payStepError f (installmentsWithID w.store bill.InstallmentID).length with
  | some e => (some e, w1)
  | Option.none => (Option.none, { w1 with store := commitPayment dbSub payment bill w.store })

instance : IsTotal Installment termLE := ⟨fun a b => le_total a.TermNumber b.TermNumber⟩

instance : IsTrans Installment termLE :=
  ⟨fun a b c (h₁ : a.TermNumber ≤ b.TermNumber) (h₂ : b.TermNumber ≤ c.TermNumber) =>
    le_trans h₁ h₂⟩

/-- The term numbers `1, 2, ..., n`. -/
def termsUpTo (n : Nat) : List Int := (List.range n).map (fun (k : Nat) => (k : Int) + 1)

/-- Some installment of `rows` has term number `t`, is not Paid and has a due
date before `now`. -/
def missedTerm (rows : List Installment) (now : Time) (t : Int) : Prop :=
  ∃ p ∈ rows, p.TermNumber = t ∧ p.Status ≠ InstallmentStatus.Paid ∧ p.DueDate < now

/-! ## Use cases (`internal/usecase/loan_usecase.go`) -/

/-- What `CreateLoan` takes from its environment: the clock read, the function
`t.AddDate(0, 0, d)` of the zone of the clock, the value of the identifier
`loanID` (used but not declared in the source), the driver error of
`SaveLoan`, and the schema default of column `billed_date`. -/
structure CreateLoanEnv where
  now : Time
  addDays : Time → Int → Time
  loanID : String
  saveFault : Option Error
  billedDefault : Installment → Option Time

/-- The `for i := 1; i <= term; i++` loop of `CreateLoan`: `n` iterations are
left, `i` is the loop variable, `lastDueDate` the running due date. -/
def scheduleLoop (addDays : Time → Int → Time) (loanID : String) (termPayment : Money) :
    Nat → Int → Time → List Installment
  | 0, _, _ => []
  | n + 1, i, lastDueDate =>
    let lastDueDate := addDays lastDueDate 7
    let billedDate := addDays lastDueDate (-5)
    { ID := "", LoanID := loanID, TermNumber := i, AmountDue := termPayment,
      DueDate := lastDueDate, BilledDate := billedDate,
      Status := InstallmentStatus.Pending } ::
        scheduleLoop addDays loanID termPayment n (i + 1) lastDueDate

/-- The loan value `CreateLoan` builds (its `ID` is never assigned). -/
def newLoan (creationDate : Time) (customerID : String) (principal rate : Money) (term : Int)
    (termType : TermType) : Loan :=
  let totalRepayable := principal * (1 + rate)
  let termPayment := totalRepayable / (term : Money)
  { ID := "", CustomerID := customerID, PrincipalAmount := principal, InterestRate := rate,
    Term := term, TermType := termType, TermPayment := termPayment,
    OutstandingAmount := totalRepayable, IsDelinquent := false, Status := LoanStatus.Active,
    CreationDate := creationDate }

/-- The schedule `CreateLoan` builds for a non-negative `term`. -/
def newSchedule (addDays : Time → Int → Time) (creationDate : Time) (loanID : String)
    (principal rate : Money) (term : Int) : List Installment :=
  scheduleLoop addDays loanID (principal * (1 + rate) / (term : Money)) term.toNat 1 creationDate

/-- `CreateLoan`.  `make([]*domain.Installment, term)` panics for a negative
`term`; otherwise the loan and the schedule go to `SaveLoan` and the loan is
returned with the error of `SaveLoan`. -/
def CreateLoan (env : CreateLoanEnv) (customerID : String) (principal rate : Money) (term : Int)
    (termType : TermType) (w : World) : Run (Loan × Option Error) × World :=
  let loan := newLoan env.now customerID principal rate term termType
  if term < 0 then (Run.panic, w) else
  let schedule := newSchedule env.addDays env.now env.loanID principal rate term
  match SaveLoan env.billedDefault env.saveFault loan schedule w with
  | (err, w1) => (Run.done (loan, err), w1)

/-- What one call of `updateDelinquencyStatus` takes from its environment. -/
structure DelinquencyEnv where
  scheduleFault : Option Error
  now : Time
  updateFault : Option Error

/-- `updateDelinquencyStatus`.  `sort.Slice` is modelled by insertion sort (the
two agree whenever term numbers are distinct); an index outside the schedule
panics. -/
def updateDelinquencyStatus (env : DelinquencyEnv) (loanID : String) (currentTerm : Int)
    (w : World) : Run (Option Error) × World :=
  if currentTerm < 2 then (Run.done none, w) else
  match GetInstallmentSchedule env.scheduleFault loanID w with
  | (Except.error e, w1) => (Run.done (some e), w1)
  | (Except.ok fetched, w1) =>
    let schedule := fetched.insertionSort termLE
    match schedule[(currentTerm - 2).toNat]? with
    | none => (Run.panic, w1)
    | some prevInst1 =>
      if prevInst1.Status ≠ InstallmentStatus.Paid ∧ prevInst1.DueDate < env.now then
        if currentTerm > 2 then
          match schedule[(currentTerm - 3).toNat]? with
          | none => (Run.panic, w1)
          | some prevInst2 =>
            if prevInst2.Status ≠ InstallmentStatus.Paid ∧ prevInst2.DueDate < env.now then
              match UpdateDelinquency env.updateFault loanID true w1 with
              | (err, w2) => (Run.done err, w2)
            else (Run.done none, w1)
        else (Run.done none, w1)
      else (Run.done none, w1)

/-- What one iteration of the loop of `CreateBilling` takes from its
environment: the environment of the delinquency evaluation, the generated
UUID, the driver error of `SaveBilling`, the error of the notifier and the
error of `UpdateBillingStatus`. -/
structure BillingStepEnv where
  delinquency : DelinquencyEnv
  uuid : String
  saveFault : Option Error
  notifyError : Option Error
  markFault : Option Error

/-- Environment of `CreateBilling`: the error and the clock read of
`FindDueInstallments`, its own clock read, and the environment of the `i`-th
loop iteration. -/
structure BillingEnv where
  findFault : Option Error
  findNow : Time
  now : Time
  step : Nat → BillingStepEnv

/-- The billing record built for a due installment. -/
def newBilling (uuid : String) (now : Time) (inst : Installment) : Billing :=
  { ID := uuid, InstallmentID := inst.ID, Amount := inst.AmountDue, BillingDate := now,
    Status := BillingStatus.PendingBilling }

/-- The `for _, inst := range pendingInstallments` loop of `CreateBilling`; `i`
counts the iterations made so far. -/
def billingLoop (env : BillingEnv) :
    List Installment → Nat → Nat → World → Run (Nat × Option Error) × World
  | [], _, billsCreated, w => (Run.done (billsCreated, none), w)
  | inst :: rest, i, billsCreated, w =>
    match updateDelinquencyStatus (env.step i).delinquency inst.LoanID inst.TermNumber w with
    | (Run.panic, w1) => (Run.panic, w1)
    | (Run.done _, w1) =>
      let billing := newBilling (env.step i).uuid env.now inst
      match SaveBilling (env.step i).saveFault billing inst.ID w1 with
      | (some e, w2) => (Run.done (billsCreated, some e), w2)
      | (none, w2) =>
        match (env.step i).notifyError with
        | some _ => billingLoop env rest (i + 1) billsCreated w2
        | none =>
          match UpdateBillingStatus (env.step i).markFault billing w2 with
          | (some _, w3) => billingLoop env rest (i + 1) billsCreated w3
          | (none, w3) => billingLoop env rest (i + 1) (billsCreated + 1) w3

/-- `CreateBilling`. -/
def CreateBilling (env : BillingEnv) (w : World) : Run (Nat × Option Error) × World :=
  match FindDueInstallments env.findFault env.findNow w with
  | (Except.error e, w1) => (Run.done (0, some e), w1)
  | (Except.ok pendingInstallments, w1) => billingLoop env pendingInstallments 0 0 w1

/-- The message string returned by `MakePayment`, as data: `empty` is `""`,
`noBills` is "No outstanding bills to pay.", `insufficient` is "Payment amount
insufficient.", `paid n x` is "Payment successful. Paid n bill(s). New
outstanding: x". -/
inductive Message where
  | empty
  | noBills
  | insufficient
  | paid (billsPaidCount : Nat) (outstanding : Money)
  deriving DecidableEq

/-- What one paying iteration of `MakePayment` takes from its environment. -/
structure PayStepEnv where
  uuid : String
  now : Time
  faults : PayFaults

/-- Environment of `MakePayment`: the error of `FindUnpaidBillings`, the
environment of the `i`-th payment, the error of the final `FindLoanByID`, the
`float64` subtraction of `paymentAmount -= bill.Amount`, and the subtraction
the database performs in `outstanding_amount - $1`. -/
structure PayEnv where
  findFault : Option Error
  step : Nat → PayStepEnv
  loanFault : Option Error
  sub : Money → Money → Money
  dbSub : Money → Money → Money

/-- The payment record built for a billing. -/
def newPayment (e : PayStepEnv) (bill : Billing) : Payment :=
  { ID := e.uuid, BillingID := bill.ID, AmountPaid := bill.Amount, PaymentDate := e.now }

/-- The `for _, bill := range unpaidBillings` loop of `MakePayment`. -/
def payLoop (env : PayEnv) :
    List Billing → Money → Nat → World → (Option Error × Nat) × World
  | [], _, billsPaidCount, w => ((none, billsPaidCount), w)
  | bill :: rest, paymentAmount, billsPaidCount, w =>
    if paymentAmount ≥ bill.Amount then
      let payment := newPayment (env.step billsPaidCount) bill
      match SavePaymentAndUpdateState env.dbSub (env.step billsPaidCount).faults payment bill
          w with
      | (some e, w1) => ((some e, billsPaidCount), w1)
      | (none, w1) =>
        payLoop env rest (env.sub paymentAmount bill.Amount) (billsPaidCount + 1) w1
    else ((none, billsPaidCount), w)

/-- `MakePayment`.  The error of the final `FindLoanByID` is discarded by the
source, and the nil loan is then dereferenced: a panic. -/
def MakePayment (env : PayEnv) (loanID : String) (paymentAmount : Money) (w : World) :
    Run (Message × Option Error) × World :=
  match FindUnpaidBillings env.findFault loanID w with
  | (Except.error e, w1) => (Run.done (Message.empty, some e), w1)
  | (Except.ok unpaid, w1) =>
    if unpaid.length = 0 then (Run.done (Message.noBills, none), w1) else
    match payLoop env unpaid paymentAmount 0 w1 with
    | ((some e, _), w2) => (Run.done (Message.empty, some e), w2)
    | ((none, billsPaidCount), w2) =>
      if billsPaidCount = 0 then (Run.done (Message.insufficient, none), w2) else
      match FindLoanByID env.loanFault loanID w2 with
      | (Except.error _, w3) => (Run.panic, w3)
      | (Except.ok loan, w3) =>
        (Run.done (Message.paid billsPaidCount loan.OutstandingAmount, none), w3)

/-! ## Closed forms used to state what `CreateBilling` stores -/

/-- The billing records built for the due installments `due`, the first of
them in loop iteration `i`. -/
def newBillingsFor (env : BillingEnv) : Nat → List Installment → List Billing
  | _, [] => []
  | i, d :: ds => newBilling (env.step i).uuid env.now d :: newBillingsFor env (i + 1) ds

/-- The arguments of the `SaveBilling` calls made for `due`, starting at loop
iteration `i`. -/
def saveCallsFor (env : BillingEnv) : Nat → List Installment → List (Billing × String)
  | _, [] => []
  | i, d :: ds => (newBilling (env.step i).uuid env.now d, d.ID) :: saveCallsFor env (i + 1) ds

/-- The arguments of the `SaveBilling` calls in a call log, in order. -/
def savedBillings (calls : List Call) : List (Billing × String) :=
  calls.filterMap (fun c =>
    match c with
    | Call.SaveBilling b x => some (b, x)
    | _ => none)

/-- Loop iteration `t` completed all its steps: the notifier and
`UpdateBillingStatus` both returned no error. -/
def stepCompleted (env : BillingEnv) (t : Nat) : Bool :=
  (env.step t).notifyError.isNone && (env.step t).markFault.isNone

/-- Number of completed iterations among the `n` iterations starting at `i`. -/
def completedFrom (env : BillingEnv) : Nat → Nat → Nat
  | _, 0 => 0
  | i, n + 1 => (if stepCompleted env i then 1 else 0) + completedFrom env (i + 1) n

/-- A billing row after `UpdateBillingStatus` ran for billings with the ids
`ids`, each passed with status Pending. -/
def resetPending (ids : List String) (b : Billing) : Billing :=
  if b.ID ∈ ids then { b with Status := BillingStatus.PendingBilling } else b

/-- Number of billing rows of an installment. -/
def billingCount (x : String) (billings : List Billing) : Nat :=
  (billings.filter (fun b => b.InstallmentID = x)).length

/-! ## Closed forms used to state what `MakePayment` stores -/

/-- The payments built for `bills`, the first of them being payment number `c`
of the call. -/
def paymentsFor (env : PayEnv) : Nat → List Billing → List Payment
  | _, [] => []
  | c, b :: bs => newPayment (env.step c) b :: paymentsFor env (c + 1) bs

/-- The `SavePaymentAndUpdateState` calls made for `bills`, starting at payment
number `c`. -/
def payCalls (env : PayEnv) : Nat → List Billing → List Call
  | _, [] => []
  | c, b :: bs =>
    Call.SavePaymentAndUpdateState (newPayment (env.step c) b) b :: payCalls env (c + 1) bs

/-- Sum of the amounts of a list of billings. -/
def totalAmount (bills : List Billing) : Money := (bills.map (fun b => b.Amount)).sum

/-- A billing row after the billings `bills` were paid: status Paid when its id
is the id of one of them, untouched otherwise. -/
def billingAfter (bills : List Billing) (r : Billing) : Billing :=
  if r.ID ∈ bills.map (fun b => b.ID) then { r with Status := BillingStatus.PaidBilling } else r

/-- An installment row after the billings `bills` were paid. -/
def installmentAfter (bills : List Billing) (r : InstallmentRow) : InstallmentRow :=
  if r.id ∈ bills.map (fun b => b.InstallmentID) then
    { r with status := InstallmentStatus.Paid } else r

/-- The amount left of `P` after the amounts of `bills` were subtracted from it
one after the other with `sub`. -/
def remaining (sub : Money → Money → Money) (P : Money) (bills : List Billing) : Money :=
  bills.foldl (fun r b => sub r b.Amount) P

/-- A loan row after the billings `bills` of loan `loanID` were paid: the
amounts were subtracted from its outstanding amount one after the other by the
database. -/
def loanAfter (dbSub : Money → Money → Money) (loanID : String) (bills : List Billing)
    (l : Loan) : Loan :=
  if l.ID = loanID then
    { l with OutstandingAmount := remaining dbSub l.OutstandingAmount bills } else l

/-- The store after exactly the billings `bills` of loan `loanID` were paid,
the first of them by payment number `c`: one payment per billing appended,
their billing and installment rows Paid, their amounts subtracted from the
outstanding amount of the loan, everything else as before. -/
def paidStore (env : PayEnv) (c : Nat) (loanID : String) (bills : List Billing) (s : Store) :
    Store :=
  { payments := s.payments ++ paymentsFor env c bills,
    billings := s.billings.map (billingAfter bills),
    installments := s.installments.map (installmentAfter bills),
    loans := s.loans.map (loanAfter env.dbSub loanID bills) }

/-- The world after `n` successive calls of `MakePayment` with the same loan
and amount, call number `j` running in environment `envs j`. -/
def repeatPayment (envs : Nat → PayEnv) (loanID : String) (P : Money) : Nat → World → World
  | 0, w => w
  | n + 1, w => (MakePayment (envs n) loanID P (repeatPayment envs loanID P n w)).2

/-! ## Closed forms used to state what `CreateBilling` does per iteration -/

/-- The world after one iteration of the billing loop for `inst` in which the
delinquency evaluation returned and the billing was persisted. -/
def stepWorld (env : BillingEnv) (i : Nat) (inst : Installment) (w : World) : World :=
  let w1 := (updateDelinquencyStatus (env.step i).delinquency inst.LoanID inst.TermNumber w).2
  let billing := newBilling (env.step i).uuid env.now inst
  let w2 := (SaveBilling none billing inst.ID w1).2
  match (env.step i).notifyError with
  | some _ => w2
  | none => (UpdateBillingStatus (env.step i).markFault billing w2).2

/-- The world after the loop iterations for `due`, the first of them iteration
`i`, in each of which the delinquency evaluation returned and the billing was
persisted. -/
def stepsWorld (env : BillingEnv) : Nat → List Installment → World → World
  | _, [], w => w
  | i, d :: ds, w => stepsWorld env (i + 1) ds (stepWorld env i d w)

/-! ## Reachable states -/

/-- The empty store. -/
def emptyWorld : World := ⟨⟨[], [], [], []⟩, []⟩

/-- The states reached from the empty store by any sequence of `CreateLoan`,
`CreateBilling` and `MakePayment` calls, with any arguments, clock values,
UUIDs and errors.  The schema is taken to give column `billed_date` no default:
a row inserted by `SaveLoan`, whose `INSERT` does not name the column, holds
NULL there. -/
inductive Reachable : World → Prop where
  | empty : Reachable emptyWorld
  | createLoan (env : CreateLoanEnv) (customerID : String) (principal rate : Money)
      (term : Int) (termType : TermType) (w : World) :
      Reachable w → env.billedDefault = (fun _ => none) →
      Reachable (CreateLoan env customerID principal rate term termType w).2
  | createBilling (env : BillingEnv) (w : World) :
      Reachable w → Reachable (CreateBilling env w).2
  | makePayment (env : PayEnv) (loanID : String) (paymentAmount : Money) (w : World) :
      Reachable w → Reachable (MakePayment env loanID paymentAmount w).2

/-! ## Example data -/

/-- An environment of `CreateLoan` at instant 0 in UTC, without errors, for a
schema without a default for `billed_date`. -/
def utcLoanEnv : CreateLoanEnv :=
  { now := 0, addDays := fixedOffsetAddDays, loanID := "L", saveFault := none,
    billedDefault := fun _ => none }

/-- The loan of the walk-through: principal 5,000,000, rate 1/10, 50 weekly
terms, term payment 110,000. -/
def demoLoan : Loan :=
  { ID := "L", CustomerID := "cust_007", PrincipalAmount := 5000000, InterestRate := 1 / 10,
    Term := 50, TermType := TermType.Weekly, TermPayment := 110000,
    OutstandingAmount := 5500000, IsDelinquent := false, Status := LoanStatus.Active,
    CreationDate := 0 }

/-- Its first three installments, all Pending; instants are counted in days
here. -/
def demoInstallments : List InstallmentRow :=
  [⟨"i1", "L", 1, 110000, 7, some 2, InstallmentStatus.Pending⟩,
   ⟨"i2", "L", 2, 110000, 14, some 9, InstallmentStatus.Pending⟩,
   ⟨"i3", "L", 3, 110000, 21, some 16, InstallmentStatus.Pending⟩]

/-- The three installments billed, nothing paid. -/
def demoBillings : List Billing :=
  [⟨"b1", "i1", 110000, 2, BillingStatus.PendingBilling⟩,
   ⟨"b2", "i2", 110000, 9, BillingStatus.PendingBilling⟩,
   ⟨"b3", "i3", 110000, 16, BillingStatus.PendingBilling⟩]

/-- The walk-through store before any billing. -/
def demoUnbilled : World := ⟨⟨[demoLoan], demoInstallments, [], []⟩, []⟩

/-- The walk-through store with three billings outstanding. -/
def demoBilled : World := ⟨⟨[demoLoan], demoInstallments, demoBillings, []⟩, []⟩

/-- An environment of `MakePayment` without any error, computing in `float64`
in Go and in the database (a `double precision` column). -/
def demoPayEnv : PayEnv :=
  { findFault := none,
    step := fun i => ⟨if i = 0 then "p1" else if i = 1 then "p2" else "p3", 30, PayFaults.none⟩,
    loanFault := none, sub := f64sub, dbSub := f64sub }

/-- An environment of `MakePayment` in which the commit of the second atomic
pay step fails. -/
def demoFailingEnv : PayEnv :=
  { findFault := none,
    step := fun i => ⟨if i = 0 then "p1" else if i = 1 then "p2" else "p3", 30,
      if i = 1 then { PayFaults.none with commit := some "commit failed" } else PayFaults.none⟩,
    loanFault := none, sub := f64sub, dbSub := f64sub }

/-- An environment of `MakePayment` in which the fourth atomic pay step would
fail at its commit. -/
def fourthFailsEnv : PayEnv :=
  { findFault := none,
    step := fun i => ⟨if i = 0 then "p1" else if i = 1 then "p2" else "p3", 30,
      if i = 3 then { PayFaults.none with commit := some "commit failed" } else PayFaults.none⟩,
    loanFault := none, sub := f64sub, dbSub := f64sub }

/-- An environment of `MakePayment` in which the commit of the third atomic
pay step fails. -/
def thirdFailsEnv : PayEnv :=
  { findFault := none,
    step := fun i => ⟨if i = 0 then "p1" else if i = 1 then "p2" else "p3", 30,
      if i = 2 then { PayFaults.none with commit := some "commit failed" } else PayFaults.none⟩,
    loanFault := none, sub := f64sub, dbSub := f64sub }

/-- A loan created with principal 0, its only installment billed: a billing of
amount 0 is outstanding. -/
def zeroBilled : World :=
  ⟨⟨[{ ID := "Z", CustomerID := "c", PrincipalAmount := 0, InterestRate := 0, Term := 1,
       TermType := TermType.Weekly, TermPayment := 0, OutstandingAmount := 0,
       IsDelinquent := false, Status := LoanStatus.Active, CreationDate := 0 }],
    [⟨"z1", "Z", 1, 0, 7, some 2, InstallmentStatus.Pending⟩],
    [⟨"bz", "z1", 0, 2, BillingStatus.PendingBilling⟩], []⟩, []⟩

/-- The `float64` value of the literal `0.01`. -/
def cent : Money := 5764607523034235 / 576460752303423488

/-- The `float64` value of the literal `0.02`, twice `cent`. -/
def twoCents : Money := 5764607523034235 / 288230376151711744

/-- The `float64` value of the literal `0.04`, four times `cent`. -/
def fourCents : Money := 5764607523034235 / 144115188075855872

/-- A loan of 0.04 over four terms of 0.01 each, all four installments billed,
nothing paid. -/
def centsBilled : World :=
  ⟨⟨[{ ID := "C", CustomerID := "c", PrincipalAmount := fourCents, InterestRate := 0, Term := 4,
       TermType := TermType.Weekly, TermPayment := cent, OutstandingAmount := fourCents,
       IsDelinquent := false, Status := LoanStatus.Active, CreationDate := 0 }],
    [⟨"c1", "C", 1, cent, 7, some 2, InstallmentStatus.Pending⟩,
     ⟨"c2", "C", 2, cent, 14, some 9, InstallmentStatus.Pending⟩,
     ⟨"c3", "C", 3, cent, 21, some 16, InstallmentStatus.Pending⟩,
     ⟨"c4", "C", 4, cent, 28, some 23, InstallmentStatus.Pending⟩],
    [⟨"k1", "c1", cent, 2, BillingStatus.PendingBilling⟩,
     ⟨"k2", "c2", cent, 9, BillingStatus.PendingBilling⟩,
     ⟨"k3", "c3", cent, 16, BillingStatus.PendingBilling⟩,
     ⟨"k4", "c4", cent, 23, BillingStatus.PendingBilling⟩], []⟩, []⟩

/-- A store in which installment 3 of loan "L" and installment 1 of another
loan "M" have the same billing lead date 16; nothing is billed yet. -/
def cycleWorld : World :=
  ⟨⟨[demoLoan],
    demoInstallments ++ [⟨"m1", "M", 1, 50, 21, some 16, InstallmentStatus.Pending⟩], [], []⟩, []⟩

/-- A billing cycle at instant 16 in which the notifier fails for the second
due installment and nothing else fails. -/
def cycleEnv : BillingEnv :=
  { findFault := none, findNow := 16, now := 16,
    step := fun t =>
      { delinquency := ⟨none, 16, none⟩,
        uuid := if t = 0 then "n1" else "n2",
        saveFault := none,
        notifyError := if t = 1 then some "notifier down" else none,
        markFault := none } }

/-- A billing cycle at instant 16 in which persisting the second billing
fails. -/
def cycleFailingEnv : BillingEnv :=
  { findFault := none, findNow := 16, now := 16,
    step := fun t =>
      { delinquency := ⟨none, 16, none⟩,
        uuid := if t = 0 then "n1" else "n2",
        saveFault := if t = 1 then some "insert failed" else none,
        notifyError := none,
        markFault := none } }

/-- A billing cycle at instant `now` in which nothing fails and every billing
gets the id `uuid`. -/
def runAt (now : Time) (uuid : String) : BillingEnv :=
  { findFault := none, findNow := now, now := now,
    step := fun _ =>
      { delinquency := ⟨none, now, none⟩, uuid := uuid, saveFault := none,
        notifyError := none, markFault := none } }

/-- A store whose only installment row is term 3 of loan "X", Pending, with
billing lead date 16: the schedule of its loan has no row for terms 1 and 2. -/
def orphanWorld : World :=
  ⟨⟨[], [⟨"x3", "X", 3, 100, 21, some 16, InstallmentStatus.Pending⟩], [], []⟩, []⟩

/-! ## Loan scheduler -/

theorem scheduleLoop_length (addDays : Time → Int → Time) (loanID : String) (tp : Money)
    (n : Nat) (i : Int) (d : Time) :
    (scheduleLoop addDays loanID tp n i d).length = n := by
  induction n generalizing i d with
  | zero => rfl
  | succ n ih => simp [scheduleLoop, ih]

theorem scheduleLoop_getElem? (addDays : Time → Int → Time) (loanID : String) (tp : Money)
    (n : Nat) (i : Int) (d : Time) (k : Nat) (hk : k < n) :
    (scheduleLoop addDays loanID tp n i d)[k]? =
      some { ID := "", LoanID := loanID, TermNumber := i + k, AmountDue := tp,
             DueDate := (fun t => addDays t 7)^[k + 1] d,
             BilledDate := addDays ((fun t => addDays t 7)^[k + 1] d) (-5),
             Status := InstallmentStatus.Pending } := by
  induction n generalizing i d k with
  | zero => omega
  | succ n ih =>
    cases k with
    | zero =>
      simp [scheduleLoop]
    | succ k =>
      simp only [scheduleLoop, List.getElem?_cons_succ]
      rw [ih (i + 1) (addDays d 7) k (by omega)]
      simp only [Function.iterate_succ, Function.comp, Option.some.injEq,
        Installment.mk.injEq, true_and, and_true]
      push_cast
      ring

theorem scheduleLoop_sum (addDays : Time → Int → Time) (loanID : String) (tp : Money)
    (n : Nat) (i : Int) (d : Time) :
    ((scheduleLoop addDays loanID tp n i d).map (fun x => x.AmountDue)).sum =
      (n : Money) * tp := by
  induction n generalizing i d with
  | zero => simp [scheduleLoop]
  | succ n ih =>
    simp only [scheduleLoop, List.map_cons, List.sum_cons, ih]
    push_cast
    ring

theorem iterate_fixedOffset (d : Time) (k : Nat) :
    (fun t => fixedOffsetAddDays t 7)^[k] d = d + 7 * k * nsPerDay := by
  induction k generalizing d with
  | zero => simp
  | succ k ih =>
    rw [Function.iterate_succ_apply, ih]
    simp only [fixedOffsetAddDays]
    push_cast
    ring

theorem CreateLoan_eq (env : CreateLoanEnv) (customerID : String) (principal rate : Money)
    (term : Int) (termType : TermType) (w : World) (h : 0 ≤ term) :
    CreateLoan env customerID principal rate term termType w =
      (Run.done (newLoan env.now customerID principal rate term termType,
         (SaveLoan env.billedDefault env.saveFault
           (newLoan env.now customerID principal rate term termType)
           (newSchedule env.addDays env.now env.loanID principal rate term) w).1),
       (SaveLoan env.billedDefault env.saveFault
           (newLoan env.now customerID principal rate term termType)
           (newSchedule env.addDays env.now env.loanID principal rate term) w).2) := by
  unfold CreateLoan
  simp only [not_lt.mpr h, if_false]

theorem SaveLoan_calls (bd : Installment → Option Time) (fault : Option Error) (loan : Loan)
    (schedule : List Installment) (w : World) :
    (SaveLoan bd fault loan schedule w).2.calls = w.calls ++ [Call.SaveLoan loan schedule] := by
  unfold SaveLoan
  cases fault <;> rfl

/-- C1. For every customer, principal, rate and every termCount >= 1, the only
repository call of CreateLoan is one SaveLoan whose schedule has exactly
termCount installments; its i-th element (i = 1..termCount) has TermNumber i,
AmountDue principal*(1+rate)/termCount, DueDate = the creation time advanced
i times by 7 days with AddDate, BilledDate = DueDate moved back 5 days with
AddDate, and Status Pending; each due date is the previous one advanced by 7
days. Days are the calendar days of AddDate in the zone of the clock; when
that zone has a fixed offset (UTC for instance) DueDate is the creation
instant + 7*i*24h, BilledDate is 5*24h earlier and consecutive due dates are
exactly 7*24h apart. -/
theorem C1_schedule_handed_to_repository (env : CreateLoanEnv) (customerID : String)
    (principal rate : Money) (term : Int) (termType : TermType) (w : World) (h : 1 ≤ term) :
    ∃ (loan : Loan) (schedule : List Installment),
      (CreateLoan env customerID principal rate term termType w).2.calls =
        w.calls ++ [Call.SaveLoan loan schedule] ∧
      (schedule.length : Int) = term ∧
      (∀ i : Nat, 1 ≤ i → (i : Int) ≤ term →
        schedule[i - 1]? =
          some { ID := "", LoanID := env.loanID, TermNumber := i,
                 AmountDue := principal * (1 + rate) / (term : Money),
                 DueDate := (fun t => env.addDays t 7)^[i] env.now,
                 BilledDate := env.addDays ((fun t => env.addDays t 7)^[i] env.now) (-5),
                 Status := InstallmentStatus.Pending }) ∧
      (∀ (i : Nat) (a b : Installment), schedule[i]? = some a → schedule[i + 1]? = some b →
        b.DueDate = env.addDays a.DueDate 7) ∧
      (env.addDays = fixedOffsetAddDays →
        (∀ (i : Nat) (a : Installment), schedule[i]? = some a →
          a.DueDate = env.now + 7 * ((i : Int) + 1) * nsPerDay ∧
          a.BilledDate = a.DueDate - 5 * nsPerDay) ∧
        (∀ (i : Nat) (a b : Installment), schedule[i]? = some a → schedule[i + 1]? = some b →
          b.DueDate - a.DueDate = 7 * nsPerDay)) := by
  have key : ∀ k : Nat, k < term.toNat →
      (newSchedule env.addDays env.now env.loanID principal rate term)[k]? =
        some { ID := "", LoanID := env.loanID, TermNumber := 1 + k,
               AmountDue := principal * (1 + rate) / (term : Money),
               DueDate := (fun t => env.addDays t 7)^[k + 1] env.now,
               BilledDate := env.addDays ((fun t => env.addDays t 7)^[k + 1] env.now) (-5),
               Status := InstallmentStatus.Pending } := fun k hk =>
    scheduleLoop_getElem? _ _ _ _ _ _ k hk
  have hlen : (newSchedule env.addDays env.now env.loanID principal rate term).length =
      term.toNat := scheduleLoop_length _ _ _ _ _ _
  have hidx : ∀ (i : Nat) (a : Installment),
      (newSchedule env.addDays env.now env.loanID principal rate term)[i]? = some a →
      i < term.toNat := by
    intro i a ha
    have := (List.getElem?_eq_some_iff.mp ha).1
    omega
  refine ⟨newLoan env.now customerID principal rate term termType,
    newSchedule env.addDays env.now env.loanID principal rate term, ?_, ?_, ?_, ?_, ?_⟩
  · rw [CreateLoan_eq _ _ _ _ _ _ _ (by omega), SaveLoan_calls]
  · rw [hlen]; omega
  · intro i hi hit
    rw [key (i - 1) (by omega)]
    have e : ((i - 1 : Nat) : Int) = (i : Int) - 1 := by omega
    have e' : i - 1 + 1 = i := by omega
    simp only [e, e', Option.some.injEq, Installment.mk.injEq, true_and, and_true]
    ring
  · intro i a b ha hb
    have hi := hidx _ _ hb
    rw [key i (by omega)] at ha
    rw [key (i + 1) hi] at hb
    cases ha; cases hb
    simp only [Function.iterate_succ_apply']
  · intro hfix
    constructor
    · intro i a ha
      rw [key i (hidx _ _ ha)] at ha
      cases ha
      simp only [hfix, iterate_fixedOffset]
      refine ⟨by push_cast; ring, ?_⟩
      simp only [fixedOffsetAddDays]
      ring
    · intro i a b ha hb
      have hi := hidx _ _ hb
      rw [key i (by omega)] at ha
      rw [key (i + 1) hi] at hb
      cases ha; cases hb
      simp only [hfix, iterate_fixedOffset]
      push_cast
      ring

/-- Witness of C1: a loan of 3 terms created in UTC. -/
theorem C1_schedule_handed_to_repository_witness :
    ∃ (loan : Loan) (schedule : List Installment),
      (CreateLoan utcLoanEnv "c" 300 0 3 TermType.Weekly emptyWorld).2.calls =
        emptyWorld.calls ++ [Call.SaveLoan loan schedule] ∧
      (schedule.length : Int) = 3 ∧
      (∀ (i : Nat) (a : Installment), schedule[i]? = some a →
          a.DueDate = utcLoanEnv.now + 7 * ((i : Int) + 1) * nsPerDay ∧
          a.BilledDate = a.DueDate - 5 * nsPerDay) ∧
      (∀ (i : Nat) (a b : Installment), schedule[i]? = some a → schedule[i + 1]? = some b →
        b.DueDate - a.DueDate = 7 * nsPerDay) :=
  match C1_schedule_handed_to_repository utcLoanEnv "c" 300 0 3 TermType.Weekly emptyWorld
      (by decide) with
  | ⟨loan, schedule, h1, h2, _, _, h5⟩ => ⟨loan, schedule, h1, h2, (h5 rfl).1, (h5 rfl).2⟩

/-- C5. For every principal, rate and termCount >= 1, CreateLoan returns a loan
and hands SaveLoan a schedule such that the sum of AmountDue over the schedule
equals the loan's OutstandingAmount, which equals principal*(1+rate); the loan
has TermPayment = principal*(1+rate)/termCount, IsDelinquent = false and
Status = Active. -/
theorem C5_schedule_sum_is_outstanding (env : CreateLoanEnv) (customerID : String)
    (principal rate : Money) (term : Int) (termType : TermType) (w : World) (h : 1 ≤ term) :
    ∃ (loan : Loan) (schedule : List Installment) (err : Option Error),
      (CreateLoan env customerID principal rate term termType w).1 = Run.done (loan, err) ∧
      (CreateLoan env customerID principal rate term termType w).2.calls =
        w.calls ++ [Call.SaveLoan loan schedule] ∧
      (schedule.map (fun x => x.AmountDue)).sum = loan.OutstandingAmount ∧
      loan.OutstandingAmount = principal * (1 + rate) ∧
      loan.TermPayment = principal * (1 + rate) / (term : Money) ∧
      loan.IsDelinquent = false ∧
      loan.Status = LoanStatus.Active := by
  refine ⟨newLoan env.now customerID principal rate term termType,
    newSchedule env.addDays env.now env.loanID principal rate term,
    (SaveLoan env.billedDefault env.saveFault
      (newLoan env.now customerID principal rate term termType)
      (newSchedule env.addDays env.now env.loanID principal rate term) w).1,
    ?_, ?_, ?_, rfl, rfl, rfl, rfl⟩
  · rw [CreateLoan_eq _ _ _ _ _ _ _ (by omega)]
  · rw [CreateLoan_eq _ _ _ _ _ _ _ (by omega), SaveLoan_calls]
  · unfold newSchedule
    rw [scheduleLoop_sum]
    have hc : ((term.toNat : Nat) : Money) = (term : Money) := by
      have : ((term.toNat : Nat) : Int) = term := Int.toNat_of_nonneg (by omega)
      exact_mod_cast this
    have hne : (term : Money) ≠ 0 := by
      have : (1 : Money) ≤ (term : Money) := by exact_mod_cast h
      linarith
    rw [hc]
    simp only [newLoan]
    field_simp

/-- Witness of C5: principal 5,000,000, rate 1/10, 50 terms. -/
theorem C5_schedule_sum_is_outstanding_witness :
    ∃ (loan : Loan) (schedule : List Installment) (err : Option Error),
      (CreateLoan utcLoanEnv "cust_007" 5000000 (1 / 10) 50 TermType.Weekly emptyWorld).1 =
        Run.done (loan, err) ∧
      (CreateLoan utcLoanEnv "cust_007" 5000000 (1 / 10) 50 TermType.Weekly emptyWorld).2.calls =
        emptyWorld.calls ++ [Call.SaveLoan loan schedule] ∧
      (schedule.map (fun x => x.AmountDue)).sum = loan.OutstandingAmount ∧
      loan.OutstandingAmount = 5000000 * (1 + 1 / 10) ∧
      loan.TermPayment = 5000000 * (1 + 1 / 10) / ((50 : Int) : Money) ∧
      loan.IsDelinquent = false ∧
      loan.Status = LoanStatus.Active :=
  C5_schedule_sum_is_outstanding utcLoanEnv "cust_007" 5000000 (1 / 10) 50
    TermType.Weekly emptyWorld (by decide)

/-- C10, counterexample. CreateLoan with principal -100 (rate 0, one term) is
not rejected: with a working store it returns no error, SaveLoan is called,
and the loan and its installment are stored. -/
theorem C10_counterexample :
    (-100 : Money) ≤ 0 ∧
    (CreateLoan utcLoanEnv "c" (-100) 0 1 TermType.Weekly emptyWorld).1 =
      Run.done (newLoan 0 "c" (-100) 0 1 TermType.Weekly, none) ∧
    (CreateLoan utcLoanEnv "c" (-100) 0 1 TermType.Weekly emptyWorld).2.calls =
      [Call.SaveLoan (newLoan 0 "c" (-100) 0 1 TermType.Weekly)
        [{ ID := "", LoanID := "L", TermNumber := 1, AmountDue := -100,
           DueDate := 7 * nsPerDay, BilledDate := 2 * nsPerDay,
           Status := InstallmentStatus.Pending }]] ∧
    (CreateLoan utcLoanEnv "c" (-100) 0 1 TermType.Weekly emptyWorld).2.store.loans =
      [{ ID := "", CustomerID := "c", PrincipalAmount := -100, InterestRate := 0, Term := 1,
         TermType := TermType.Weekly, TermPayment := -100, OutstandingAmount := -100,
         IsDelinquent := false, Status := LoanStatus.Active, CreationDate := 0 }] ∧
    (CreateLoan utcLoanEnv "c" (-100) 0 1 TermType.Weekly emptyWorld).2.store.installments.length
      = 1 := by
  refine ⟨by norm_num, ?_, ?_, ?_, ?_⟩ <;>
    simp [CreateLoan, SaveLoan, newLoan, newSchedule, scheduleLoop, World.log,
      fixedOffsetAddDays, nsPerDay, utcLoanEnv, emptyWorld]

/-- C10, amended. CreateLoan checks no precondition. For termCount >= 1 and any
principal and rate it calls SaveLoan exactly once, with the loan and the
schedule it built, and returns the loan with the error of SaveLoan: when
SaveLoan succeeds no error is returned and the loan and its installments are
stored, when SaveLoan fails its error is returned and nothing is stored. For
termCount < 0 it panics before any repository call and nothing is stored. -/
theorem C10_amended_no_validation (env : CreateLoanEnv) (customerID : String)
    (principal rate : Money) (term : Int) (termType : TermType) (w : World) :
    (1 ≤ term →
      (CreateLoan env customerID principal rate term termType w).1 =
        Run.done (newLoan env.now customerID principal rate term termType, env.saveFault) ∧
      (CreateLoan env customerID principal rate term termType w).2.calls =
        w.calls ++ [Call.SaveLoan (newLoan env.now customerID principal rate term termType)
          (newSchedule env.addDays env.now env.loanID principal rate term)] ∧
      (env.saveFault = none →
        (CreateLoan env customerID principal rate term termType w).2.store =
          { w.store with
            loans := w.store.loans ++ [newLoan env.now customerID principal rate term termType],
            installments := w.store.installments ++
              (newSchedule env.addDays env.now env.loanID principal rate term).map
                (insertedRow env.billedDefault) }) ∧
      (env.saveFault ≠ none →
        (CreateLoan env customerID principal rate term termType w).2.store = w.store)) ∧
    (term < 0 → CreateLoan env customerID principal rate term termType w = (Run.panic, w)) := by
  constructor
  · intro h
    rw [CreateLoan_eq _ _ _ _ _ _ _ (by omega)]
    unfold SaveLoan
    cases hf : env.saveFault <;> simp [World.log]
  · intro h
    unfold CreateLoan
    simp only [h, if_true]

/-- Witness of the amended C10: principal -100 with one term is accepted and
term -1 panics. -/
theorem C10_amended_no_validation_witness :
    (CreateLoan utcLoanEnv "c" (-100) 0 1 TermType.Weekly emptyWorld).1 =
      Run.done (newLoan 0 "c" (-100) 0 1 TermType.Weekly, none) ∧
    CreateLoan utcLoanEnv "c" 100 0 (-1) TermType.Weekly emptyWorld =
      (Run.panic, emptyWorld) :=
  ⟨((C10_amended_no_validation utcLoanEnv "c" (-100) 0 1 TermType.Weekly emptyWorld).1
      (by decide)).1,
   (C10_amended_no_validation utcLoanEnv "c" 100 0 (-1) TermType.Weekly emptyWorld).2
      (by decide)⟩

/-! ## Delinquency detector -/

theorem termsUpTo_sorted (n : Nat) : (termsUpTo n).Sorted (· ≤ ·) := by
  unfold termsUpTo List.Sorted
  rw [List.pairwise_map]
  refine (List.pairwise_lt_range n).imp ?_
  intro a b hab
  omega

theorem termsUpTo_nodup (n : Nat) : (termsUpTo n).Nodup := by
  unfold termsUpTo
  refine (List.nodup_range n).map ?_
  intro a b hab
  simpa using hab

/-- Sorting a schedule whose term numbers are a rearrangement of `1..n` puts
term `k + 1` at index `k`. -/
theorem sorted_terms (rows : List Installment) (n : Nat)
    (hperm : (rows.map (fun x => x.TermNumber)).Perm (termsUpTo n)) :
    (((rows.insertionSort termLE).insertionSort termLE).map (fun x => x.TermNumber)) =
      termsUpTo n := by
  have hp : (((rows.insertionSort termLE).insertionSort termLE).map
      (fun x => x.TermNumber)).Perm (termsUpTo n) :=
    ((((List.perm_insertionSort termLE _).trans (List.perm_insertionSort termLE rows)).map
      (fun x => x.TermNumber))).trans hperm
  have hs : (((rows.insertionSort termLE).insertionSort termLE).map
      (fun x => x.TermNumber)).Sorted (· ≤ ·) := by
    unfold List.Sorted
    rw [List.pairwise_map]
    exact List.sorted_insertionSort termLE _
  exact List.eq_of_perm_of_sorted hp hs (termsUpTo_sorted n)

/-- Under the same hypothesis the element at index `k < n` of the sorted
schedule is the installment of term `k + 1`, and it decides `missedTerm`. -/
theorem sorted_getElem? (rows : List Installment) (n : Nat) (now : Time)
    (hperm : (rows.map (fun x => x.TermNumber)).Perm (termsUpTo n)) (k : Nat) (hk : k < n) :
    ∃ x, ((rows.insertionSort termLE).insertionSort termLE)[k]? = some x ∧
      (missedTerm rows now ((k : Int) + 1) ↔
        (x.Status ≠ InstallmentStatus.Paid ∧ x.DueDate < now)) := by
  have hmap := sorted_terms rows n hperm
  have hk' : (termsUpTo n)[k]? = some ((k : Int) + 1) := by
    unfold termsUpTo
    rw [List.getElem?_map, List.getElem?_range hk]
    rfl
  rw [← hmap, List.getElem?_map] at hk'
  cases hx : ((rows.insertionSort termLE).insertionSort termLE)[k]? with
  | none => rw [hx] at hk'; cases hk'
  | some x =>
    rw [hx] at hk'
    have hxt : x.TermNumber = (k : Int) + 1 := by simpa using hk'
    have hxmem : x ∈ rows := by
      have h1 : x ∈ (rows.insertionSort termLE).insertionSort termLE :=
        List.mem_iff_getElem?.mpr ⟨k, hx⟩
      exact (List.mem_insertionSort termLE).mp ((List.mem_insertionSort termLE).mp h1)
    have hnd : (rows.map (fun x => x.TermNumber)).Nodup :=
      (hperm.nodup_iff).mpr (termsUpTo_nodup n)
    refine ⟨x, rfl, ?_, ?_⟩
    · rintro ⟨p, hp, hpt, hps, hpd⟩
      have : p = x := List.inj_on_of_nodup_map hnd hp hxmem (by rw [hpt, hxt])
      subst this
      exact ⟨hps, hpd⟩
    · rintro ⟨h1, h2⟩
      exact ⟨x, hxmem, hxt, h1, h2⟩

theorem updateDelinquencyStatus_term_lt_two (env : DelinquencyEnv) (loanID : String)
    (currentTerm : Int) (w : World) (h : currentTerm < 2) :
    updateDelinquencyStatus env loanID currentTerm w = (Run.done none, w) := by
  unfold updateDelinquencyStatus
  simp only [h, if_true]

/-- C4, counterexample. A loan with terms 1 and 2, term 1 unpaid and due before
`now`, evaluated for currentTerm = 2: the predecessor is unpaid and past due
and no term 0 exists, yet the flag is not set and no UpdateDelinquency call is
made. -/
theorem C4_counterexample :
    missedTerm
      (loanRows
        ⟨[{ ID := "L", CustomerID := "c", PrincipalAmount := 200, InterestRate := 0, Term := 2,
            TermType := TermType.Weekly, TermPayment := 100, OutstandingAmount := 200,
            IsDelinquent := false, Status := LoanStatus.Active, CreationDate := 0 }],
         [⟨"i1", "L", 1, 100, 7, some 2, InstallmentStatus.Pending⟩,
          ⟨"i2", "L", 2, 100, 14, some 9, InstallmentStatus.Pending⟩], [], []⟩ "L") 9 (2 - 1) ∧
    updateDelinquencyStatus ⟨none, 9, none⟩ "L" 2
      ⟨⟨[{ ID := "L", CustomerID := "c", PrincipalAmount := 200, InterestRate := 0, Term := 2,
            TermType := TermType.Weekly, TermPayment := 100, OutstandingAmount := 200,
            IsDelinquent := false, Status := LoanStatus.Active, CreationDate := 0 }],
         [⟨"i1", "L", 1, 100, 7, some 2, InstallmentStatus.Pending⟩,
          ⟨"i2", "L", 2, 100, 14, some 9, InstallmentStatus.Pending⟩], [], []⟩, []⟩ =
      (Run.done none,
       ⟨⟨[{ ID := "L", CustomerID := "c", PrincipalAmount := 200, InterestRate := 0, Term := 2,
            TermType := TermType.Weekly, TermPayment := 100, OutstandingAmount := 200,
            IsDelinquent := false, Status := LoanStatus.Active, CreationDate := 0 }],
         [⟨"i1", "L", 1, 100, 7, some 2, InstallmentStatus.Pending⟩,
          ⟨"i2", "L", 2, 100, 14, some 9, InstallmentStatus.Pending⟩], [], []⟩,
        [Call.GetInstallmentSchedule "L"]⟩) := by
  constructor
  · refine ⟨⟨"i1", "L", 1, 100, 7, zeroTime, InstallmentStatus.Pending⟩, ?_, ?_, ?_, ?_⟩
    · simp [loanRows, scanSchedule]
    · norm_num
    · simp
    · norm_num
  · simp [updateDelinquencyStatus, GetInstallmentSchedule, installmentSchedule, loanRows,
      scanSchedule, World.log, termLE, List.insertionSort, List.orderedInsert]

/-- C4, amended. For a loan whose schedule holds the terms 1..n, every instant
now and every currentTerm with 1 <= currentTerm <= n (schedule query
succeeding): the delinquency evaluation calls UpdateDelinquency(loan, true),
setting the flag when that update succeeds, if and only if currentTerm >= 3
and the installments of terms currentTerm-1 and currentTerm-2 are both unpaid
with a due date before now. Otherwise it returns no error and leaves the store
unchanged, reading only the schedule; in particular the flag is never set for
currentTerm = 2, and for currentTerm = 1 no repository call is made. -/
theorem C4_amended_delinquency (env : DelinquencyEnv) (loanID : String) (currentTerm : Int)
    (w : World) (n : Nat)
    (hperm : ((loanRows w.store loanID).map (fun x => x.TermNumber)).Perm (termsUpTo n))
    (h1 : 1 ≤ currentTerm) (hn : currentTerm ≤ n) (hq : env.scheduleFault = none) :
    ((3 ≤ currentTerm ∧ missedTerm (loanRows w.store loanID) env.now (currentTerm - 1) ∧
        missedTerm (loanRows w.store loanID) env.now (currentTerm - 2)) →
      (updateDelinquencyStatus env loanID currentTerm w).1 = Run.done env.updateFault ∧
      (updateDelinquencyStatus env loanID currentTerm w).2.calls =
        w.calls ++ [Call.GetInstallmentSchedule loanID, Call.UpdateDelinquency loanID true] ∧
      (env.updateFault = none →
        (updateDelinquencyStatus env loanID currentTerm w).2.store =
          { w.store with loans := w.store.loans.map (setDelinquent loanID true) }) ∧
      (env.updateFault ≠ none →
        (updateDelinquencyStatus env loanID currentTerm w).2.store = w.store)) ∧
    (¬ (3 ≤ currentTerm ∧ missedTerm (loanRows w.store loanID) env.now (currentTerm - 1) ∧
        missedTerm (loanRows w.store loanID) env.now (currentTerm - 2)) →
      (updateDelinquencyStatus env loanID currentTerm w).1 = Run.done none ∧
      (updateDelinquencyStatus env loanID currentTerm w).2.store = w.store ∧
      (updateDelinquencyStatus env loanID currentTerm w).2.calls =
        w.calls ++ (if currentTerm < 2 then [] else [Call.GetInstallmentSchedule loanID])) ∧
    (currentTerm = 1 → updateDelinquencyStatus env loanID currentTerm w = (Run.done none, w)) := by
  have hGet : GetInstallmentSchedule env.scheduleFault loanID w =
      (Except.ok (installmentSchedule w.store loanID),
        w.log (Call.GetInstallmentSchedule loanID)) := by
    unfold GetInstallmentSchedule
    rw [hq]
  by_cases hlt : currentTerm < 2
  · have hres := updateDelinquencyStatus_term_lt_two env loanID currentTerm w hlt
    refine ⟨fun hm => absurd hm.1 (by omega), fun _ => ?_, fun _ => hres⟩
    rw [hres]
    simp [hlt]
  · obtain ⟨x1, hx1, hm1⟩ := sorted_getElem? (loanRows w.store loanID) n env.now hperm
      (currentTerm - 2).toNat (by omega)
    have e1 : (((currentTerm - 2).toNat : Nat) : Int) + 1 = currentTerm - 1 := by omega
    rw [e1] at hm1
    have hquiet : ∀ r : Run (Option Error) × World,
        r = (Run.done none, w.log (Call.GetInstallmentSchedule loanID)) →
        r.1 = Run.done none ∧ r.2.store = w.store ∧
        r.2.calls = w.calls ++
          (if currentTerm < 2 then [] else [Call.GetInstallmentSchedule loanID]) := by
      intro r hr
      subst hr
      simp [World.log, hlt]
    by_cases hc1 : x1.Status ≠ InstallmentStatus.Paid ∧ x1.DueDate < env.now
    · by_cases h3 : currentTerm > 2
      · obtain ⟨x2, hx2, hm2⟩ := sorted_getElem? (loanRows w.store loanID) n env.now hperm
          (currentTerm - 3).toNat (by omega)
        have e2 : (((currentTerm - 3).toNat : Nat) : Int) + 1 = currentTerm - 2 := by omega
        rw [e2] at hm2
        by_cases hc2 : x2.Status ≠ InstallmentStatus.Paid ∧ x2.DueDate < env.now
        · have hres : updateDelinquencyStatus env loanID currentTerm w =
              (Run.done (UpdateDelinquency env.updateFault loanID true
                  (w.log (Call.GetInstallmentSchedule loanID))).1,
               (UpdateDelinquency env.updateFault loanID true
                  (w.log (Call.GetInstallmentSchedule loanID))).2) := by
            unfold updateDelinquencyStatus
            simp only [hlt, if_false, hGet, installmentSchedule, hx1, hx2, hc1, hc2, h3,
              if_true, and_self, ne_eq, not_false_eq_true]
          refine ⟨fun _ => ?_, fun hno => absurd ⟨by omega, hm1.mpr hc1, hm2.mpr hc2⟩ hno,
            fun h => absurd h (by omega)⟩
          rw [hres]
          unfold UpdateDelinquency
          cases hu : env.updateFault <;> simp [World.log]
        · have hres : updateDelinquencyStatus env loanID currentTerm w =
              (Run.done none, w.log (Call.GetInstallmentSchedule loanID)) := by
            unfold updateDelinquencyStatus
            simp only [hlt, if_false, hGet, installmentSchedule, hx1, hx2, hc1, hc2, h3,
              if_true, and_self, ne_eq, not_false_eq_true]
          exact ⟨fun hm => absurd (hm2.mp hm.2.2) hc2, fun _ => hquiet _ hres,
            fun h => absurd h (by omega)⟩
      · have hres : updateDelinquencyStatus env loanID currentTerm w =
            (Run.done none, w.log (Call.GetInstallmentSchedule loanID)) := by
          unfold updateDelinquencyStatus
          simp only [hlt, if_false, hGet, installmentSchedule, hx1, hc1, h3,
            if_true, and_self, ne_eq, not_false_eq_true]
        exact ⟨fun hm => absurd hm.1 (by omega), fun _ => hquiet _ hres,
          fun h => absurd h (by omega)⟩
    · have hres : updateDelinquencyStatus env loanID currentTerm w =
          (Run.done none, w.log (Call.GetInstallmentSchedule loanID)) := by
        unfold updateDelinquencyStatus
        simp only [hlt, if_false, hGet, installmentSchedule, hx1, hc1]
      exact ⟨fun hm => absurd (hm1.mp hm.2.1) hc1, fun _ => hquiet _ hres,
        fun h => absurd h (by omega)⟩

/-- Witness of the amended C4: at term 3 with terms 1 and 2 unpaid and past
due, the flag of the loan is set. -/
theorem C4_amended_delinquency_witness :
    (updateDelinquencyStatus ⟨none, 16, none⟩ "L" 3 demoUnbilled).2.store =
      { demoUnbilled.store with
        loans := demoUnbilled.store.loans.map (setDelinquent "L" true) } :=
  ((C4_amended_delinquency ⟨none, 16, none⟩ "L" 3 demoUnbilled 3
      (by simp [loanRows, scanSchedule, demoUnbilled, demoInstallments, termsUpTo, List.range,
            List.range.loop])
      (by decide) (by decide) rfl).1
    ⟨by decide,
     ⟨⟨"i2", "L", 2, 110000, 14, zeroTime, InstallmentStatus.Pending⟩,
        by simp [loanRows, scanSchedule, demoUnbilled, demoInstallments], by norm_num,
        by simp, by norm_num⟩,
     ⟨⟨"i1", "L", 1, 110000, 7, zeroTime, InstallmentStatus.Pending⟩,
        by simp [loanRows, scanSchedule, demoUnbilled, demoInstallments], by norm_num,
        by simp, by norm_num⟩⟩).2.2.1 rfl

/-! ## Payment allocator -/

theorem payStepError_none_rows (f : PayFaults) (rows : Nat) (h : payStepError f rows = none) :
    rows = 1 := by
  unfold payStepError at h
  split at h
  · cases h
  · split at h
    · cases h
    · split at h
      · cases h
      · split at h
        · cases h
        · split at h
          · cases h
          · split at h
            · cases h
            · split at h
              · cases h
              · omega

theorem SavePayment_ok (dbSub : Money → Money → Money) (f : PayFaults) (p : Payment)
    (b : Billing) (w : World)
    (h : payStepError f (installmentsWithID w.store b.InstallmentID).length = none) :
    SavePaymentAndUpdateState dbSub f p b w =
      (none, ⟨commitPayment dbSub p b w.store,
        w.calls ++ [Call.SavePaymentAndUpdateState p b]⟩) := by
  unfold SavePaymentAndUpdateState
  simp only [h, World.log]

theorem SavePayment_err (dbSub : Money → Money → Money) (f : PayFaults) (p : Payment)
    (b : Billing) (w : World) (e : Error)
    (h : payStepError f (installmentsWithID w.store b.InstallmentID).length = some e) :
    SavePaymentAndUpdateState dbSub f p b w =
      (some e, ⟨w.store, w.calls ++ [Call.SavePaymentAndUpdateState p b]⟩) := by
  unfold SavePaymentAndUpdateState
  simp only [h, World.log]

theorem markInstallmentPaid_id (x : String) (r : InstallmentRow) :
    (markInstallmentPaid x r).id = r.id ∧ (markInstallmentPaid x r).loan_id = r.loan_id := by
  unfold markInstallmentPaid
  split <;> simp

theorem installmentsWithID_commit (dbSub : Money → Money → Money) (p : Payment) (b : Billing)
    (s : Store) (x : String) :
    installmentsWithID (commitPayment dbSub p b s) x =
      (installmentsWithID s x).map (markInstallmentPaid b.InstallmentID) := by
  unfold installmentsWithID commitPayment
  simp only [List.filter_map]
  congr 1
  apply List.filter_congr
  intro r _
  simp [(markInstallmentPaid_id b.InstallmentID r).1]

theorem owner_commit (dbSub : Money → Money → Money) (p : Payment) (b : Billing) (s : Store)
    (x loanID : String)
    (h : ∃ r ∈ s.installments, r.id = x ∧ r.loan_id = loanID) :
    ∃ r ∈ (commitPayment dbSub p b s).installments, r.id = x ∧ r.loan_id = loanID := by
  obtain ⟨r, hr, h1, h2⟩ := h
  refine ⟨markInstallmentPaid b.InstallmentID r, ?_, ?_, ?_⟩
  · exact List.mem_map_of_mem _ hr
  · rw [(markInstallmentPaid_id _ r).1, h1]
  · rw [(markInstallmentPaid_id _ r).2, h2]

/-- When exactly one installment row has the id and a row with that id belongs
to the loan, the sub-select of statement 4 yields the loan. -/
theorem owner_unique (s : Store) (x loanID : String)
    (hone : (installmentsWithID s x).length = 1)
    (h : ∃ r ∈ s.installments, r.id = x ∧ r.loan_id = loanID) :
    (installmentsWithID s x).map (fun r => r.loan_id) = [loanID] := by
  obtain ⟨r, hr, h1, h2⟩ := h
  have hmem : r ∈ installmentsWithID s x := by
    unfold installmentsWithID
    simp [List.mem_filter, hr, h1]
  match hl : installmentsWithID s x, hone with
  | [y], _ =>
    rw [hl] at hmem
    have : r = y := by simpa using hmem
    subst this
    simp [h2]

theorem paidStore_nil (env : PayEnv) (c : Nat) (loanID : String) (s : Store) :
    paidStore env c loanID [] s = s := by
  have hb : (billingAfter []) = id := by
    funext r
    simp [billingAfter]
  have hi : (installmentAfter []) = id := by
    funext r
    simp [installmentAfter]
  have hl : (loanAfter env.dbSub loanID []) = id := by
    funext l
    simp [loanAfter, remaining]
  cases s
  simp [paidStore, paymentsFor, hb, hi, hl]

theorem paidStore_cons (env : PayEnv) (c : Nat) (loanID : String) (b : Billing)
    (pre : List Billing) (s : Store)
    (hown : (installmentsWithID s b.InstallmentID).map (fun r => r.loan_id) = [loanID]) :
    paidStore env (c + 1) loanID pre (commitPayment env.dbSub (newPayment (env.step c) b) b s) =
      paidStore env c loanID (b :: pre) s := by
  have hb : ∀ r : Billing,
      billingAfter pre (setBillingStatus b.ID BillingStatus.PaidBilling r) =
        billingAfter (b :: pre) r := by
    intro r
    by_cases h1 : r.ID = b.ID <;>
    by_cases h2 : r.ID ∈ pre.map (fun b => b.ID) <;>
    simp [billingAfter, setBillingStatus, h1, h2]
  have hi : ∀ r : InstallmentRow,
      installmentAfter pre (markInstallmentPaid b.InstallmentID r) =
        installmentAfter (b :: pre) r := by
    intro r
    by_cases h1 : r.id = b.InstallmentID <;>
    by_cases h2 : r.id ∈ pre.map (fun b => b.InstallmentID) <;>
    simp [installmentAfter, markInstallmentPaid, h1, h2]
  have hl : ∀ l : Loan,
      loanAfter env.dbSub loanID pre (debitLoan env.dbSub [loanID] b.Amount l) =
        loanAfter env.dbSub loanID (b :: pre) l := by
    intro l
    by_cases h1 : l.ID = loanID
    · simp [loanAfter, debitLoan, remaining, h1]
    · simp [loanAfter, debitLoan, h1]
  simp only [paidStore, commitPayment, hown, paymentsFor, List.map_map, List.append_assoc,
    List.singleton_append, Store.mk.injEq, and_true]
  refine ⟨?_, ?_, ?_⟩
  · exact List.map_congr_left (fun l _ => hl l)
  · exact List.map_congr_left (fun r _ => hi r)
  · exact List.map_congr_left (fun r _ => hb r)

theorem totalAmount_take_succ (bills : List Billing) (k : Nat) (b : Billing)
    (h : bills[k]? = some b) :
    totalAmount (bills.take (k + 1)) = totalAmount (bills.take k) + b.Amount := by
  induction bills generalizing k with
  | nil => simp at h
  | cons a rest ih =>
    cases k with
    | zero =>
      simp only [List.getElem?_cons_zero, Option.some.injEq] at h
      subst h
      simp [totalAmount]
    | succ k =>
      simp only [List.getElem?_cons_succ] at h
      have := ih k h
      simp only [totalAmount, List.take_succ_cons, List.map_cons, List.sum_cons] at this ⊢
      rw [this]
      ring

theorem remaining_take_succ (sub : Money → Money → Money) (P : Money) (bills : List Billing)
    (k : Nat) (b : Billing) (h : bills[k]? = some b) :
    remaining sub P (bills.take (k + 1)) = sub (remaining sub P (bills.take k)) b.Amount := by
  induction bills generalizing k P with
  | nil => simp at h
  | cons a rest ih =>
    cases k with
    | zero =>
      simp only [List.getElem?_cons_zero, Option.some.injEq] at h
      subst h
      simp [remaining]
    | succ k =>
      simp only [List.getElem?_cons_succ] at h
      have := ih (sub P a.Amount) k h
      simpa [remaining] using this

/-- When the first `k` subtractions are exact, the amount left after them is
the amount minus the sum. -/
theorem remaining_exact (sub : Money → Money → Money) (P : Money) (bills : List Billing)
    (k : Nat) (hk : k ≤ bills.length)
    (hexact : ∀ i b, i < k → bills[i]? = some b →
      sub (remaining sub P (bills.take i)) b.Amount =
        remaining sub P (bills.take i) - b.Amount) :
    remaining sub P (bills.take k) = P - totalAmount (bills.take k) := by
  induction k with
  | zero => simp [remaining, totalAmount]
  | succ k ih =>
    have hlt : k < bills.length := by omega
    have hb := List.getElem?_eq_getElem hlt
    rw [remaining_take_succ sub P bills k _ hb, totalAmount_take_succ bills k _ hb,
      hexact k _ (by omega) hb, ih (by omega) (fun i b hi => hexact i b (by omega))]
    ring

theorem payLoop_step_ok (env : PayEnv) (b : Billing) (rest : List Billing) (amt : Money)
    (c : Nat) (w : World) (hge : b.Amount ≤ amt)
    (hstep : payStepError (env.step c).faults
      (installmentsWithID w.store b.InstallmentID).length = none) :
    payLoop env (b :: rest) amt c w =
      payLoop env rest (env.sub amt b.Amount) (c + 1)
        ⟨commitPayment env.dbSub (newPayment (env.step c) b) b w.store,
         w.calls ++ [Call.SavePaymentAndUpdateState (newPayment (env.step c) b) b]⟩ := by
  rw [payLoop]
  simp only [ge_iff_le, hge, if_true, SavePayment_ok _ _ _ _ _ hstep]

theorem payLoop_step_err (env : PayEnv) (b : Billing) (rest : List Billing) (amt : Money)
    (c : Nat) (w : World) (e : Error) (hge : b.Amount ≤ amt)
    (hstep : payStepError (env.step c).faults
      (installmentsWithID w.store b.InstallmentID).length = some e) :
    payLoop env (b :: rest) amt c w =
      ((some e, c),
        ⟨w.store, w.calls ++ [Call.SavePaymentAndUpdateState (newPayment (env.step c) b) b]⟩) := by
  rw [payLoop]
  simp only [ge_iff_le, hge, if_true, SavePayment_err _ _ _ _ _ e hstep]

theorem payLoop_step_short (env : PayEnv) (b : Billing) (rest : List Billing) (amt : Money)
    (c : Nat) (w : World) (hlt : amt < b.Amount) :
    payLoop env (b :: rest) amt c w = ((none, c), w) := by
  rw [payLoop]
  simp only [ge_iff_le, not_le.mpr hlt, if_false]

/-- Full description of the payment loop.  Some number `k` of leading billings
is paid: each of them was covered by the amount left when its turn came and
its atomic step succeeded.  Then either the loop ends without error, at the
end of the list or at a billing the amount left does not cover, or the atomic
step of billing `k` failed and its error is returned.  In both cases the store
is the one with exactly the first `k` billings paid. -/
theorem payLoop_spec (env : PayEnv) (loanID : String) (bills : List Billing) :
    ∀ (amt : Money) (c : Nat) (w : World),
    (∀ b ∈ bills, ∃ r ∈ w.store.installments, r.id = b.InstallmentID ∧ r.loan_id = loanID) →
    ∃ k, k ≤ bills.length ∧
      (∀ i b, i < k → bills[i]? = some b →
        b.Amount ≤ remaining env.sub amt (bills.take i) ∧
        payStepError (env.step (c + i)).faults
          (installmentsWithID w.store b.InstallmentID).length = none) ∧
      ((payLoop env bills amt c w =
          ((none, c + k), ⟨paidStore env c loanID (bills.take k) w.store,
            w.calls ++ payCalls env c (bills.take k)⟩) ∧
        (k = bills.length ∨
          ∃ b, bills[k]? = some b ∧ remaining env.sub amt (bills.take k) < b.Amount)) ∨
       (∃ b e, bills[k]? = some b ∧ b.Amount ≤ remaining env.sub amt (bills.take k) ∧
          payStepError (env.step (c + k)).faults
            (installmentsWithID w.store b.InstallmentID).length = some e ∧
          payLoop env bills amt c w =
            ((some e, c + k), ⟨paidStore env c loanID (bills.take k) w.store,
              w.calls ++ payCalls env c (bills.take k) ++
                [Call.SavePaymentAndUpdateState (newPayment (env.step (c + k)) b) b]⟩))) := by
  induction bills with
  | nil =>
    intro amt c w _
    refine ⟨0, le_refl _, fun i b hi => absurd hi (by omega), Or.inl ⟨?_, Or.inl rfl⟩⟩
    simp [payLoop, paidStore_nil, payCalls]
  | cons b rest ih =>
    intro amt c w hloan
    have htake : ∀ j, remaining env.sub amt ((b :: rest).take (j + 1)) =
        remaining env.sub (env.sub amt b.Amount) (rest.take j) := by
      intro j
      simp [remaining]
    have hzero : remaining env.sub amt ((b :: rest).take 0) = amt := by
      simp [remaining]
    by_cases hge : b.Amount ≤ amt
    · cases hstep : payStepError (env.step c).faults
          (installmentsWithID w.store b.InstallmentID).length with
      | some e =>
        refine ⟨0, Nat.zero_le _, fun i b hi => absurd hi (by omega), Or.inr ⟨b, e, ?_, ?_, ?_, ?_⟩⟩
        · simp
        · rw [hzero]; exact hge
        · simpa using hstep
        · rw [payLoop_step_err env b rest amt c w e hge hstep]
          simp [paidStore_nil, payCalls]
      | none =>
        have hown := owner_unique w.store b.InstallmentID loanID
          (payStepError_none_rows _ _ hstep) (hloan b (List.mem_cons_self _ _))
        have hlen : ∀ x, (installmentsWithID
            (commitPayment env.dbSub (newPayment (env.step c) b) b w.store) x).length =
              (installmentsWithID w.store x).length := by
          intro x
          rw [installmentsWithID_commit, List.length_map]
        obtain ⟨k, hk, hpre, hout⟩ := ih (env.sub amt b.Amount) (c + 1)
          ⟨commitPayment env.dbSub (newPayment (env.step c) b) b w.store,
           w.calls ++ [Call.SavePaymentAndUpdateState (newPayment (env.step c) b) b]⟩
          (fun x hx => owner_commit _ _ _ _ _ _ (hloan x (List.mem_cons_of_mem _ hx)))
        have hidx : ∀ j, c + 1 + j = c + (j + 1) := fun j => by omega
        refine ⟨k + 1, by simpa using hk, ?_, ?_⟩
        · intro i x hi hx
          cases i with
          | zero =>
            simp only [List.getElem?_cons_zero, Option.some.injEq] at hx
            subst hx
            refine ⟨?_, by simpa using hstep⟩
            rw [hzero]; exact hge
          | succ j =>
            simp only [List.getElem?_cons_succ] at hx
            obtain ⟨h1, h2⟩ := hpre j x (by omega) hx
            rw [hlen, hidx] at h2
            refine ⟨?_, h2⟩
            rw [htake j]
            exact h1
        · rw [payLoop_step_ok env b rest amt c w hge hstep]
          rcases hout with ⟨heq, hstop⟩ | ⟨x, e, hx, hsum, herr, heq⟩
          · refine Or.inl ⟨?_, ?_⟩
            · rw [heq, paidStore_cons env c loanID b _ w.store hown]
              simp [payCalls, hidx]
            · rcases hstop with hend | ⟨x, hx, hlt⟩
              · exact Or.inl (by simp [hend])
              · refine Or.inr ⟨x, by simpa using hx, ?_⟩
                rw [htake k]
                exact hlt
          · refine Or.inr ⟨x, e, by simpa using hx, ?_, ?_, ?_⟩
            · rw [htake k]
              exact hsum
            · rw [hlen, hidx] at herr
              exact herr
            · rw [heq, paidStore_cons env c loanID b _ w.store hown]
              simp [payCalls, hidx]
    · refine ⟨0, Nat.zero_le _, fun i b hi => absurd hi (by omega), Or.inl ⟨?_, Or.inr ⟨b, ?_, ?_⟩⟩⟩
      · rw [payLoop_step_short env b rest amt c w (not_le.mp hge)]
        simp [paidStore_nil, payCalls]
      · simp
      · rw [hzero]
        exact not_le.mp hge

theorem mem_unpaidBillings (s : Store) (loanID : String) (b : Billing)
    (h : b ∈ unpaidBillings s loanID) :
    b ∈ s.billings ∧ b.Status ≠ BillingStatus.PaidBilling ∧
      ∃ r ∈ s.installments, r.id = b.InstallmentID ∧ r.loan_id = loanID := by
  unfold unpaidBillings at h
  obtain ⟨⟨b', t⟩, hmem, hb⟩ := List.mem_map.mp h
  simp only at hb
  subst hb
  have hj : (b', t) ∈ unpaidJoin s loanID := (List.mem_insertionSort joinLE).mp hmem
  unfold unpaidJoin at hj
  simp only [List.mem_flatMap, List.mem_filter, List.mem_map, Prod.mk.injEq,
    decide_eq_true_eq] at hj
  obtain ⟨b0, ⟨hb0, hst⟩, r, ⟨hr, hid, hloan⟩, hbe, _⟩ := hj
  subst hbe
  exact ⟨hb0, hst, r, hr, hid, hloan⟩

theorem FindUnpaidBillings_ok (env : PayEnv) (loanID : String) (w : World)
    (hfind : env.findFault = none) :
    FindUnpaidBillings env.findFault loanID w =
      (Except.ok (unpaidBillings w.store loanID),
        ⟨w.store, w.calls ++ [Call.FindUnpaidBillings loanID]⟩) := by
  unfold FindUnpaidBillings
  rw [hfind]
  rfl

/-- Description of `MakePayment` when the query for unpaid billings succeeds,
in terms of the number `k` of billings paid. -/
theorem MakePayment_spec (env : PayEnv) (loanID : String) (P : Money) (w : World)
    (hfind : env.findFault = none) :
    ∃ k, k ≤ (unpaidBillings w.store loanID).length ∧
      (∀ i b, i < k → (unpaidBillings w.store loanID)[i]? = some b →
        b.Amount ≤ remaining env.sub P ((unpaidBillings w.store loanID).take i) ∧
        payStepError (env.step i).faults
          (installmentsWithID w.store b.InstallmentID).length = none) ∧
      (MakePayment env loanID P w).2.store =
        paidStore env 0 loanID ((unpaidBillings w.store loanID).take k) w.store ∧
      (((k = (unpaidBillings w.store loanID).length ∨
          ∃ b, (unpaidBillings w.store loanID)[k]? = some b ∧
            remaining env.sub P ((unpaidBillings w.store loanID).take k) < b.Amount) ∧
        (MakePayment env loanID P w).2.calls =
          w.calls ++ [Call.FindUnpaidBillings loanID] ++
            payCalls env 0 ((unpaidBillings w.store loanID).take k) ++
            (if k = 0 then [] else [Call.FindLoanByID loanID]) ∧
        (MakePayment env loanID P w).1 =
          (if unpaidBillings w.store loanID = [] then Run.done (Message.noBills, none)
           else if k = 0 then Run.done (Message.insufficient, none)
           else
             match (FindLoanByID env.loanFault loanID
               ⟨paidStore env 0 loanID ((unpaidBillings w.store loanID).take k) w.store,
                []⟩).1 with
             | Except.error _ => Run.panic
             | Except.ok loan => Run.done (Message.paid k loan.OutstandingAmount, none))) ∨
       (∃ b e, (unpaidBillings w.store loanID)[k]? = some b ∧
          b.Amount ≤ remaining env.sub P ((unpaidBillings w.store loanID).take k) ∧
          payStepError (env.step k).faults
            (installmentsWithID w.store b.InstallmentID).length = some e ∧
          (MakePayment env loanID P w).1 = Run.done (Message.empty, some e) ∧
          (MakePayment env loanID P w).2.calls =
            w.calls ++ [Call.FindUnpaidBillings loanID] ++
              payCalls env 0 ((unpaidBillings w.store loanID).take k) ++
              [Call.SavePaymentAndUpdateState (newPayment (env.step k) b) b])) := by
  obtain ⟨k, hk, hpre, hout⟩ := payLoop_spec env loanID (unpaidBillings w.store loanID) P 0
    ⟨w.store, w.calls ++ [Call.FindUnpaidBillings loanID]⟩
    (fun b hb => (mem_unpaidBillings w.store loanID b hb).2.2)
  simp only [Nat.zero_add] at hpre hout
  refine ⟨k, hk, hpre, ?_⟩
  by_cases hnil : unpaidBillings w.store loanID = []
  · have hk0 : k = 0 := by
      rw [hnil] at hk
      simpa using hk
    subst hk0
    have hres : MakePayment env loanID P w =
        (Run.done (Message.noBills, none),
          ⟨w.store, w.calls ++ [Call.FindUnpaidBillings loanID]⟩) := by
      unfold MakePayment
      rw [FindUnpaidBillings_ok env loanID w hfind]
      simp [hnil]
    rw [hres]
    refine ⟨by simp [paidStore_nil], Or.inl ⟨Or.inl (by simp [hnil]), ?_, ?_⟩⟩
    · simp [payCalls]
    · simp [hnil]
  · have hlen : ¬ (unpaidBillings w.store loanID).length = 0 := by
      simpa using hnil
    rcases hout with ⟨heq, hstop⟩ | ⟨b, e, hb, hsum, herr, heq⟩
    · by_cases hk0 : k = 0
      · have hres : MakePayment env loanID P w =
            (Run.done (Message.insufficient, none),
              ⟨paidStore env 0 loanID ((unpaidBillings w.store loanID).take k) w.store,
               w.calls ++ [Call.FindUnpaidBillings loanID] ++
                 payCalls env 0 ((unpaidBillings w.store loanID).take k)⟩) := by
          unfold MakePayment
          rw [FindUnpaidBillings_ok env loanID w hfind]
          simp only [hlen, if_false, heq, hk0, if_true]
        rw [hres]
        exact ⟨rfl, Or.inl ⟨hstop, by simp [hk0], by simp [hnil, hk0]⟩⟩
      · have hres : MakePayment env loanID P w =
            (match (FindLoanByID env.loanFault loanID
               ⟨paidStore env 0 loanID ((unpaidBillings w.store loanID).take k) w.store,
                []⟩).1 with
             | Except.error _ => Run.panic
             | Except.ok loan => Run.done (Message.paid k loan.OutstandingAmount, none),
              ⟨paidStore env 0 loanID ((unpaidBillings w.store loanID).take k) w.store,
               w.calls ++ [Call.FindUnpaidBillings loanID] ++
                 payCalls env 0 ((unpaidBillings w.store loanID).take k) ++
                 [Call.FindLoanByID loanID]⟩) := by
          unfold MakePayment
          rw [FindUnpaidBillings_ok env loanID w hfind]
          simp only [hlen, if_false, heq, hk0]
          unfold FindLoanByID
          cases env.loanFault with
          | some e => simp [World.log]
          | none =>
            simp only [World.log]
            cases (paidStore env 0 loanID ((unpaidBillings w.store loanID).take k)
              w.store).loans.find? (fun l => l.ID = loanID) <;> simp
        rw [hres]
        exact ⟨rfl, Or.inl ⟨hstop, by simp [hk0], by simp [hnil, hk0]⟩⟩
    · have hres : MakePayment env loanID P w =
          (Run.done (Message.empty, some e),
            ⟨paidStore env 0 loanID ((unpaidBillings w.store loanID).take k) w.store,
             w.calls ++ [Call.FindUnpaidBillings loanID] ++
               payCalls env 0 ((unpaidBillings w.store loanID).take k) ++
               [Call.SavePaymentAndUpdateState (newPayment (env.step k) b) b]⟩) := by
        unfold MakePayment
        rw [FindUnpaidBillings_ok env loanID w hfind]
        simp only [hlen, if_false, heq]
      rw [hres]
      exact ⟨rfl, Or.inr ⟨b, e, hb, hsum, herr, rfl, rfl⟩⟩

theorem paymentsFor_proj (env : PayEnv) (c : Nat) (bills : List Billing) :
    (paymentsFor env c bills).map (fun p => (p.BillingID, p.AmountPaid)) =
      bills.map (fun b => (b.ID, b.Amount)) := by
  induction bills generalizing c with
  | nil => rfl
  | cons b rest ih => simp [paymentsFor, newPayment, ih]

theorem totalAmount_take_mono (bills : List Billing) (h : ∀ b ∈ bills, 0 ≤ b.Amount)
    (i j : Nat) (hij : i ≤ j) :
    totalAmount (bills.take i) ≤ totalAmount (bills.take j) := by
  induction bills generalizing i j with
  | nil => simp
  | cons b rest ih =>
    have hnn : ∀ n, 0 ≤ totalAmount (rest.take n) := by
      intro n
      unfold totalAmount
      apply List.sum_nonneg
      intro x hx
      obtain ⟨y, hy, rfl⟩ := List.mem_map.mp hx
      exact h y (List.mem_cons_of_mem _ (List.mem_of_mem_take hy))
    cases i with
    | zero =>
      cases j with
      | zero => simp
      | succ j =>
        have := hnn j
        have hb := h b (List.mem_cons_self _ _)
        simp only [totalAmount, List.take_zero, List.map_nil, List.sum_nil, List.take_succ_cons,
          List.map_cons, List.sum_cons] at this ⊢
        linarith
    | succ i =>
      cases j with
      | zero => omega
      | succ j =>
        have := ih (fun x hx => h x (List.mem_cons_of_mem _ hx)) i j (by omega)
        simp only [totalAmount, List.take_succ_cons, List.map_cons, List.sum_cons] at this ⊢
        linarith

theorem billing_untouched (bills : List Billing) (l : List Billing) (r : Billing) (hr : r ∈ l)
    (hid : r.ID ∉ bills.map (fun b => b.ID)) : r ∈ l.map (billingAfter bills) := by
  refine List.mem_map.mpr ⟨r, hr, ?_⟩
  simp [billingAfter, hid]

theorem installment_untouched (bills : List Billing) (l : List InstallmentRow)
    (r : InstallmentRow) (hr : r ∈ l) (hid : r.id ∉ bills.map (fun b => b.InstallmentID)) :
    r ∈ l.map (installmentAfter bills) := by
  refine List.mem_map.mpr ⟨r, hr, ?_⟩
  simp [installmentAfter, hid]

theorem loanAfter_find (dbSub : Money → Money → Money) (loanID : String) (bills : List Billing)
    (loans : List Loan) :
    (loans.map (loanAfter dbSub loanID bills)).find? (fun l => l.ID = loanID) =
      (loans.find? (fun l => l.ID = loanID)).map (loanAfter dbSub loanID bills) := by
  induction loans with
  | nil => rfl
  | cons l rest ih =>
    by_cases h : l.ID = loanID
    · simp [List.find?_cons, loanAfter, h]
    · simp only [List.map_cons, List.find?_cons, loanAfter, h, if_false, decide_False]
      exact ih

/-- C2, counterexample. A loan of 0.04 over four terms of 0.01 has its four
billings outstanding and 0.04 is paid (all values `float64`). The four amounts
are non-negative and sum to exactly 0.04, so the largest index whose prefix
sum is covered is 4; but the amount left after three `float64` subtractions is
below 0.01, and MakePayment pays three billings only, leaving the fourth
unpaid. -/
theorem C2_counterexample :
    (unpaidBillings centsBilled.store "C").map (fun b => b.Amount) = [cent, cent, cent, cent] ∧
    (0 : Money) ≤ cent ∧
    totalAmount ((unpaidBillings centsBilled.store "C").take 4) ≤ fourCents ∧
    (MakePayment demoPayEnv "C" fourCents centsBilled).1 =
      Run.done (Message.paid 3 (5764607523034233 / 576460752303423488), none) ∧
    (MakePayment demoPayEnv "C" fourCents centsBilled).2.store.payments =
      [⟨"p1", "k1", cent, 30⟩, ⟨"p2", "k2", cent, 30⟩, ⟨"p3", "k3", cent, 30⟩] ∧
    (⟨"k4", "c4", cent, 23, BillingStatus.PendingBilling⟩ : Billing) ∈
      (MakePayment demoPayEnv "C" fourCents centsBilled).2.store.billings := by
  decide!

/-- C2, amended. With a repository whose query and atomic pay steps succeed,
MakePayment pays exactly the prefix b_1..b_k of the unpaid billings (in the
order FindUnpaidBillings returns them, ascending term) where k is the number
of leading billings each covered by the amount left when its turn comes, the
amount left being the payment amount after the float64 subtraction of the
earlier billings: the store afterwards is the store with exactly those k
billings paid, one Payment per b_i (i <= k) with BillingID = b_i.ID and
AmountPaid = b_i.Amount is recorded, exactly k atomic pay steps are made,
every billing row and installment row not belonging to b_1..b_k is unchanged,
and no error is returned. When the subtractions made are exact and amounts and
payment are non-negative, k is the largest index with
a_1+...+a_k <= paymentAmount. -/
theorem C2_amended_pays_covered_prefix (env : PayEnv) (loanID : String) (P : Money)
    (w : World) (hfind : env.findFault = none)
    (hok : ∀ i b, (unpaidBillings w.store loanID)[i]? = some b →
      payStepError (env.step i).faults
        (installmentsWithID w.store b.InstallmentID).length = none) :
    ∃ k, k ≤ (unpaidBillings w.store loanID).length ∧
      (∀ i b, i < k → (unpaidBillings w.store loanID)[i]? = some b →
        b.Amount ≤ remaining env.sub P ((unpaidBillings w.store loanID).take i)) ∧
      (k = (unpaidBillings w.store loanID).length ∨
        ∃ b, (unpaidBillings w.store loanID)[k]? = some b ∧
          remaining env.sub P ((unpaidBillings w.store loanID).take k) < b.Amount) ∧
      (MakePayment env loanID P w).2.store =
        paidStore env 0 loanID ((unpaidBillings w.store loanID).take k) w.store ∧
      (MakePayment env loanID P w).2.store.payments =
        w.store.payments ++ paymentsFor env 0 ((unpaidBillings w.store loanID).take k) ∧
      (paymentsFor env 0 ((unpaidBillings w.store loanID).take k)).map
          (fun p => (p.BillingID, p.AmountPaid)) =
        ((unpaidBillings w.store loanID).take k).map (fun b => (b.ID, b.Amount)) ∧
      (MakePayment env loanID P w).2.calls =
        w.calls ++ [Call.FindUnpaidBillings loanID] ++
          payCalls env 0 ((unpaidBillings w.store loanID).take k) ++
          (if k = 0 then [] else [Call.FindLoanByID loanID]) ∧
      (∀ r ∈ w.store.billings,
        r.ID ∉ ((unpaidBillings w.store loanID).take k).map (fun b => b.ID) →
        r ∈ (MakePayment env loanID P w).2.store.billings) ∧
      (∀ r ∈ w.store.installments,
        r.id ∉ ((unpaidBillings w.store loanID).take k).map (fun b => b.InstallmentID) →
        r ∈ (MakePayment env loanID P w).2.store.installments) ∧
      (∀ m e, (MakePayment env loanID P w).1 = Run.done (m, e) → e = none) ∧
      ((∀ i b, (unpaidBillings w.store loanID)[i]? = some b →
          env.sub (remaining env.sub P ((unpaidBillings w.store loanID).take i)) b.Amount =
            remaining env.sub P ((unpaidBillings w.store loanID).take i) - b.Amount) →
        (∀ b ∈ unpaidBillings w.store loanID, 0 ≤ b.Amount) → 0 ≤ P →
        totalAmount ((unpaidBillings w.store loanID).take k) ≤ P ∧
        ∀ j, k < j → j ≤ (unpaidBillings w.store loanID).length →
          P < totalAmount ((unpaidBillings w.store loanID).take j)) := by
  obtain ⟨k, hk, hpre, hstore, hout⟩ := MakePayment_spec env loanID P w hfind
  rcases hout with ⟨hstop, hcalls, hres⟩ | ⟨b, e, hb, _, herr, _, _⟩
  · refine ⟨k, hk, fun i b hi hb => (hpre i b hi hb).1, hstop, hstore, by rw [hstore]; rfl,
      paymentsFor_proj _ _ _, hcalls, ?_, ?_, ?_, ?_⟩
    · intro r hr hid
      rw [hstore]
      exact billing_untouched _ _ r hr hid
    · intro r hr hid
      rw [hstore]
      exact installment_untouched _ _ r hr hid
    · intro m e hme
      rw [hres] at hme
      split_ifs at hme
      · cases hme; rfl
      · cases hme; rfl
      · split at hme
        · cases hme
        · cases hme; rfl
    · intro hexact hnonneg hP
      have hrem : ∀ n, n ≤ (unpaidBillings w.store loanID).length →
          remaining env.sub P ((unpaidBillings w.store loanID).take n) =
            P - totalAmount ((unpaidBillings w.store loanID).take n) :=
        fun n hn => remaining_exact env.sub P _ n hn (fun i b _ hb => hexact i b hb)
      constructor
      · cases k with
        | zero => simpa [totalAmount] using hP
        | succ k =>
          have hlt : k < (unpaidBillings w.store loanID).length := by omega
          have hb := List.getElem?_eq_getElem hlt
          have h1 := (hpre k _ (by omega) hb).1
          rw [hrem k (by omega)] at h1
          rw [totalAmount_take_succ _ k _ hb]
          linarith
      · intro j hkj hj
        rcases hstop with hend | ⟨b, hb, hlt⟩
        · omega
        · rw [hrem k hk] at hlt
          have hmono := totalAmount_take_mono _ hnonneg (k + 1) j (by omega)
          rw [totalAmount_take_succ _ k _ hb] at hmono
          linarith
  · rw [hok k b hb] at herr
    cases herr

theorem demo_unpaid : unpaidBillings demoBilled.store "L" = demoBillings := by
  simp [unpaidBillings, unpaidJoin, demoBilled, demoBillings, demoInstallments,
    List.insertionSort, List.orderedInsert, joinLE]

theorem demo_steps_ok (i : Nat) (b : Billing)
    (h : (unpaidBillings demoBilled.store "L")[i]? = some b) :
    payStepError (demoPayEnv.step i).faults
      (installmentsWithID demoBilled.store b.InstallmentID).length = none := by
  rw [demo_unpaid] at h
  have hb : b ∈ demoBillings := List.mem_iff_getElem?.mpr ⟨i, h⟩
  simp only [demoBillings, List.mem_cons, List.mem_singleton, List.not_mem_nil, or_false] at hb
  rcases hb with rfl | rfl | rfl <;>
    simp [payStepError, demoPayEnv, PayFaults.none, installmentsWithID, demoBilled,
      demoInstallments]

/-- Against the three walk-through billings of 110,000 the loop pays two when
the amount covers the first, the rest covers the second and what is then left
does not cover the third. -/
theorem demo_count (P r₁ r₂ : Money) (h1 : f64sub P 110000 = r₁) (h2 : f64sub r₁ 110000 = r₂)
    (hP : 110000 ≤ P) (hr1 : 110000 ≤ r₁) (hr2 : r₂ < 110000) (k : Nat) (hk : k ≤ 3)
    (hcov : ∀ i b, i < k → demoBillings[i]? = some b →
      b.Amount ≤ remaining f64sub P (demoBillings.take i))
    (hstop : k = 3 ∨ ∃ b, demoBillings[k]? = some b ∧
      remaining f64sub P (demoBillings.take k) < b.Amount) : k = 2 := by
  interval_cases k
  · rcases hstop with h | ⟨b, hb, hlt⟩
    · omega
    · simp only [demoBillings, List.getElem?_cons_zero, Option.some.injEq] at hb
      subst hb
      simp only [List.take_zero, remaining, List.foldl_nil] at hlt
      linarith
  · rcases hstop with h | ⟨b, hb, hlt⟩
    · omega
    · simp only [demoBillings, List.getElem?_cons_succ, List.getElem?_cons_zero,
        Option.some.injEq] at hb
      subst hb
      simp only [demoBillings, List.take_succ_cons, List.take_zero, remaining, List.foldl_cons,
        List.foldl_nil, h1] at hlt
      linarith
  · rfl
  · have := hcov 2 ⟨"b3", "i3", 110000, 16, BillingStatus.PendingBilling⟩ (by omega)
      (by simp [demoBillings])
    simp only [demoBillings, List.take_succ_cons, List.take_zero, remaining, List.foldl_cons,
      List.foldl_nil, h1, h2] at this
    linarith

theorem f64sub_demo :
    f64sub 250000 110000 = 140000 ∧ f64sub 140000 110000 = 30000 ∧
    f64sub 220000 110000 = 110000 ∧ f64sub 110000 110000 = 0 ∧
    f64sub 330000 110000 = 220000 ∧
    f64sub 5500000 110000 = 5390000 ∧ f64sub 5390000 110000 = 5280000 := by
  decide!

/-- Witness of the amended C2: against the three walk-through billings of
110,000 a payment of 250,000 pays the first two; their payments are recorded
and the third billing is unchanged. -/
theorem C2_amended_pays_covered_prefix_witness :
    (MakePayment demoPayEnv "L" 250000 demoBilled).2.store.payments =
      [⟨"p1", "b1", 110000, 30⟩, ⟨"p2", "b2", 110000, 30⟩] ∧
    (⟨"b3", "i3", 110000, 16, BillingStatus.PendingBilling⟩ : Billing) ∈
      (MakePayment demoPayEnv "L" 250000 demoBilled).2.store.billings :=
  match C2_amended_pays_covered_prefix demoPayEnv "L" 250000 demoBilled rfl demo_steps_ok with
  | ⟨k, hk, hcov, hstop, _, hpay, _, _, hbill, _⟩ => by
    rw [demo_unpaid] at hk hcov hstop hpay hbill
    have hk2 : k = 2 := demo_count 250000 140000 30000 f64sub_demo.1 f64sub_demo.2.1
      (by norm_num) (by norm_num) (by norm_num) k (by simpa [demoBillings] using hk) hcov hstop
    subst hk2
    refine ⟨?_, ?_⟩
    · rw [hpay]
      simp [demoBilled, demoBillings, paymentsFor, newPayment, demoPayEnv]
    · apply hbill
      · simp [demoBilled, demoBillings]
      · simp [demoBillings]

/-- C3, counterexample. A loan of 0.04 over four terms of 0.01 (all values
`float64`, the outstanding amount a `double precision` column) has its
billings outstanding and 0.02 is paid: two billings of 0.01 are paid without
error, and the outstanding amount becomes 0.019999999999999997, not
0.04 - (0.01 + 0.01) = 0.02. -/
theorem C3_counterexample :
    (MakePayment demoPayEnv "C" twoCents centsBilled).1 =
      Run.done (Message.paid 2 (2882303761517117 / 144115188075855872), none) ∧
    (MakePayment demoPayEnv "C" twoCents centsBilled).2.store.payments =
      [⟨"p1", "k1", cent, 30⟩, ⟨"p2", "k2", cent, 30⟩] ∧
    centsBilled.store.loans.map (fun l => l.OutstandingAmount) = [fourCents] ∧
    (MakePayment demoPayEnv "C" twoCents centsBilled).2.store.loans.map
        (fun l => l.OutstandingAmount) = [2882303761517117 / 144115188075855872] ∧
    fourCents - (cent + cent) = twoCents ∧
    (2882303761517117 / 144115188075855872 : Money) ≠ fourCents - (cent + cent) := by
  decide!

/-- C3, amended. For every store and every MakePayment call that completes
without error: it pays the first k unpaid billings of the loan, k being the
number of leading billings each covered by the amount left when its turn
comes, and records one payment for each. The OutstandingAmount of the loan
afterwards is its value before with a_1, ..., a_k subtracted one after the
other by the database, other loans being unchanged; it is the value before
minus a_1+...+a_k exactly when those database subtractions are exact. When
k = 0 the whole store is unchanged and the message is the insufficiency
message (or the no-bills message when nothing is unpaid), and k = 0 whenever
the payment is smaller than the oldest unpaid billing; when k > 0 the message
reports k and the new outstanding amount. -/
theorem C3_amended_outstanding_after_payment (env : PayEnv) (loanID : String) (P : Money)
    (w : World) (msg : Message)
    (hres : (MakePayment env loanID P w).1 = Run.done (msg, none)) :
    ∃ k, k ≤ (unpaidBillings w.store loanID).length ∧
      (∀ i b, i < k → (unpaidBillings w.store loanID)[i]? = some b →
        b.Amount ≤ remaining env.sub P ((unpaidBillings w.store loanID).take i)) ∧
      (k = (unpaidBillings w.store loanID).length ∨
        ∃ b, (unpaidBillings w.store loanID)[k]? = some b ∧
          remaining env.sub P ((unpaidBillings w.store loanID).take k) < b.Amount) ∧
      (MakePayment env loanID P w).2.store.payments =
        w.store.payments ++ paymentsFor env 0 ((unpaidBillings w.store loanID).take k) ∧
      (MakePayment env loanID P w).2.store.loans =
        w.store.loans.map
          (loanAfter env.dbSub loanID ((unpaidBillings w.store loanID).take k)) ∧
      (k = 0 → (MakePayment env loanID P w).2.store = w.store ∧
        msg = (if unpaidBillings w.store loanID = [] then Message.noBills
               else Message.insufficient)) ∧
      (∀ b, (unpaidBillings w.store loanID)[0]? = some b → P < b.Amount → k = 0) ∧
      (k ≠ 0 → ∃ l, w.store.loans.find? (fun l => l.ID = loanID) = some l ∧
        msg = Message.paid k
          (remaining env.dbSub l.OutstandingAmount
            ((unpaidBillings w.store loanID).take k))) ∧
      ((∀ l ∈ w.store.loans, l.ID = loanID →
          ∀ i b, i < k → (unpaidBillings w.store loanID)[i]? = some b →
            env.dbSub (remaining env.dbSub l.OutstandingAmount
                ((unpaidBillings w.store loanID).take i)) b.Amount =
              remaining env.dbSub l.OutstandingAmount
                ((unpaidBillings w.store loanID).take i) - b.Amount) →
        (MakePayment env loanID P w).2.store.loans =
          w.store.loans.map (fun l =>
            if l.ID = loanID then
              { l with OutstandingAmount := l.OutstandingAmount -
                  totalAmount ((unpaidBillings w.store loanID).take k) }
            else l)) := by
  have hfind : env.findFault = none := by
    cases hf : env.findFault with
    | none => rfl
    | some e =>
      have : (MakePayment env loanID P w).1 = Run.done (Message.empty, some e) := by
        unfold MakePayment FindUnpaidBillings
        simp [hf]
      rw [this] at hres
      cases hres
  obtain ⟨k, hk, hpre, hstore, hout⟩ := MakePayment_spec env loanID P w hfind
  rcases hout with ⟨hstop, hcalls, hmsg⟩ | ⟨b, e, _, _, _, herr, _⟩
  · refine ⟨k, hk, fun i b hi hb => (hpre i b hi hb).1, hstop, by rw [hstore]; rfl,
      by rw [hstore]; rfl, ?_, ?_, ?_, ?_⟩
    · intro hk0
      subst hk0
      refine ⟨by rw [hstore]; simp [paidStore_nil], ?_⟩
      rw [hmsg] at hres
      by_cases h1 : unpaidBillings w.store loanID = []
      · simp only [h1, if_true] at hres ⊢
        cases hres
        rfl
      · simp only [h1, if_false, if_true] at hres ⊢
        cases hres
        rfl
    · intro b hb hlt
      by_contra hk0
      have h := (hpre 0 b (by omega) hb).1
      simp only [List.take_zero, remaining, List.foldl_nil] at h
      linarith
    · intro hk0
      rw [hmsg] at hres
      have hnil : ¬ unpaidBillings w.store loanID = [] := by
        intro h
        rw [h] at hk
        simp at hk
        exact hk0 hk
      simp only [hnil, hk0, if_false] at hres
      unfold FindLoanByID at hres
      cases hl : env.loanFault with
      | some e =>
        simp [hl] at hres
      | none =>
        simp only [hl, paidStore, loanAfter_find] at hres
        cases hfl : w.store.loans.find? (fun l => l.ID = loanID) with
        | none => simp [hfl] at hres
        | some l =>
          have hid : l.ID = loanID := by
            have := List.find?_some hfl
            simpa using this
          simp only [hfl, Option.map_some', Run.done.injEq, Prod.mk.injEq, and_true] at hres
          refine ⟨l, rfl, ?_⟩
          rw [← hres]
          simp [loanAfter, hid]
    · intro hexact
      rw [hstore]
      simp only [paidStore]
      apply List.map_congr_left
      intro l hl
      unfold loanAfter
      by_cases hid : l.ID = loanID
      · simp only [hid, if_true]
        rw [remaining_exact env.dbSub l.OutstandingAmount _ k hk (hexact l hl hid)]
      · simp only [hid, if_false]
  · rw [herr] at hres
    cases hres

/-- Witness of the amended C3, the walk-through: term payment 110,000, three
billings outstanding, paying 220,000 pays exactly the first two and the
outstanding amount goes from 5,500,000 to 5,280,000. -/
theorem C3_amended_outstanding_after_payment_witness :
    demoBilled.store.loans.map (fun l => l.OutstandingAmount) = [5500000] ∧
    (MakePayment demoPayEnv "L" 220000 demoBilled).2.store.payments =
      [⟨"p1", "b1", 110000, 30⟩, ⟨"p2", "b2", 110000, 30⟩] ∧
    (MakePayment demoPayEnv "L" 220000 demoBilled).2.store.loans =
      [{ demoLoan with OutstandingAmount := 5280000 }] :=
  match C3_amended_outstanding_after_payment demoPayEnv "L" 220000 demoBilled
      (Message.paid 2 5280000) (by decide!) with
  | ⟨k, hk, hcov, hstop, hpay, hloans, _⟩ => by
    rw [demo_unpaid] at hk hcov hstop hpay hloans
    have hk2 : k = 2 := demo_count 220000 110000 0 f64sub_demo.2.2.1 f64sub_demo.2.2.2.1
      (by norm_num) (by norm_num) (by norm_num) k (by simpa [demoBillings] using hk) hcov hstop
    subst hk2
    refine ⟨by simp [demoBilled, demoLoan], ?_, ?_⟩
    · rw [hpay]
      simp [demoBilled, demoBillings, paymentsFor, newPayment, demoPayEnv]
    · rw [hloans]
      simp [demoBilled, demoBillings, demoLoan, loanAfter, remaining, demoPayEnv,
        f64sub_demo.2.2.2.2.2.1, f64sub_demo.2.2.2.2.2.2]

/-- C7, counterexample. Four unpaid billings of 0.01 (`float64`) of a loan
with outstanding amount 0.04, and a payment of 0.04, which is exactly their
sum. First, the atomic pay step would fail on the fourth billing (N = 4): the
amount left after three `float64` subtractions is below 0.01, so the loop
stops before the fourth billing, never attempts the failing step and returns a
success message for three paid billings instead of the error. Second, the
atomic pay step fails on the third billing (N = 3): the error is returned and
the first two billings are paid, but the outstanding amount (a
`double precision` column) is then 0.019999999999999997, not
0.04 - (0.01 + 0.01) = 0.02. -/
theorem C7_counterexample :
    (unpaidBillings centsBilled.store "C").map (fun b => b.Amount) = [cent, cent, cent, cent] ∧
    totalAmount ((unpaidBillings centsBilled.store "C").take 4) = fourCents ∧
    ((∀ i, i < 3 → payStepError (fourthFailsEnv.step i).faults 1 = none) ∧
      payStepError (fourthFailsEnv.step 3).faults 1 = some "commit failed" ∧
      (MakePayment fourthFailsEnv "C" fourCents centsBilled).1 =
        Run.done (Message.paid 3 (5764607523034233 / 576460752303423488), none) ∧
      (MakePayment fourthFailsEnv "C" fourCents centsBilled).2.calls =
        [Call.FindUnpaidBillings "C",
         Call.SavePaymentAndUpdateState ⟨"p1", "k1", cent, 30⟩
           ⟨"k1", "c1", cent, 2, BillingStatus.PendingBilling⟩,
         Call.SavePaymentAndUpdateState ⟨"p2", "k2", cent, 30⟩
           ⟨"k2", "c2", cent, 9, BillingStatus.PendingBilling⟩,
         Call.SavePaymentAndUpdateState ⟨"p3", "k3", cent, 30⟩
           ⟨"k3", "c3", cent, 16, BillingStatus.PendingBilling⟩,
         Call.FindLoanByID "C"]) ∧
    ((∀ i, i < 2 → payStepError (thirdFailsEnv.step i).faults 1 = none) ∧
      payStepError (thirdFailsEnv.step 2).faults 1 = some "commit failed" ∧
      (MakePayment thirdFailsEnv "C" fourCents centsBilled).1 =
        Run.done (Message.empty, some "commit failed") ∧
      (MakePayment thirdFailsEnv "C" fourCents centsBilled).2.store.payments =
        [⟨"p1", "k1", cent, 30⟩, ⟨"p2", "k2", cent, 30⟩] ∧
      centsBilled.store.loans.map (fun l => l.OutstandingAmount) = [fourCents] ∧
      (MakePayment thirdFailsEnv "C" fourCents centsBilled).2.store.loans.map
          (fun l => l.OutstandingAmount) = [2882303761517117 / 144115188075855872] ∧
      (2882303761517117 / 144115188075855872 : Money) ≠ fourCents - (cent + cent)) := by
  decide!

/-- C7, amended. Let b_1..b_n be the unpaid billings of the loan and let the
loop reach b_N (N = m+1): each of b_1..b_N is covered by the amount left when
its turn comes, the amount left being the payment amount after the float64
subtraction of the earlier billings. If the atomic pay step succeeds for
b_1..b_(N-1) and fails on b_N with error e, then MakePayment returns e with the
empty message, makes exactly N atomic pay steps (none after b_N), and leaves
the store with exactly b_1..b_(N-1) paid: their payments recorded, their
billings and installments Paid, the outstanding amount of the loan lowered by
a_1, ..., a_(N-1) subtracted one after the other by the database (which is the
value before minus a_1+...+a_(N-1) when those subtractions are exact), and
every billing or installment row not belonging to b_1..b_(N-1) unchanged. -/
theorem C7_amended_failure_keeps_earlier_payments (env : PayEnv) (loanID : String)
    (P : Money) (w : World) (m : Nat) (bN : Billing) (e : Error)
    (hfind : env.findFault = none)
    (hN : (unpaidBillings w.store loanID)[m]? = some bN)
    (hcover : ∀ i b, i ≤ m → (unpaidBillings w.store loanID)[i]? = some b →
      b.Amount ≤ remaining env.sub P ((unpaidBillings w.store loanID).take i))
    (hok : ∀ i b, i < m → (unpaidBillings w.store loanID)[i]? = some b →
      payStepError (env.step i).faults
        (installmentsWithID w.store b.InstallmentID).length = none)
    (hfail : payStepError (env.step m).faults
        (installmentsWithID w.store bN.InstallmentID).length = some e) :
    (MakePayment env loanID P w).1 = Run.done (Message.empty, some e) ∧
    (MakePayment env loanID P w).2.calls =
      w.calls ++ [Call.FindUnpaidBillings loanID] ++
        payCalls env 0 ((unpaidBillings w.store loanID).take m) ++
        [Call.SavePaymentAndUpdateState (newPayment (env.step m) bN) bN] ∧
    (MakePayment env loanID P w).2.store =
      paidStore env 0 loanID ((unpaidBillings w.store loanID).take m) w.store ∧
    (MakePayment env loanID P w).2.store.payments =
      w.store.payments ++ paymentsFor env 0 ((unpaidBillings w.store loanID).take m) ∧
    (MakePayment env loanID P w).2.store.loans =
      w.store.loans.map
        (loanAfter env.dbSub loanID ((unpaidBillings w.store loanID).take m)) ∧
    (∀ r ∈ w.store.billings,
      r.ID ∉ ((unpaidBillings w.store loanID).take m).map (fun b => b.ID) →
      r ∈ (MakePayment env loanID P w).2.store.billings) ∧
    (∀ r ∈ w.store.installments,
      r.id ∉ ((unpaidBillings w.store loanID).take m).map (fun b => b.InstallmentID) →
      r ∈ (MakePayment env loanID P w).2.store.installments) ∧
    ((∀ l ∈ w.store.loans, l.ID = loanID →
        ∀ i b, i < m → (unpaidBillings w.store loanID)[i]? = some b →
          env.dbSub (remaining env.dbSub l.OutstandingAmount
              ((unpaidBillings w.store loanID).take i)) b.Amount =
            remaining env.dbSub l.OutstandingAmount
              ((unpaidBillings w.store loanID).take i) - b.Amount) →
      (MakePayment env loanID P w).2.store.loans =
        w.store.loans.map (fun l =>
          if l.ID = loanID then
            { l with OutstandingAmount := l.OutstandingAmount -
                totalAmount ((unpaidBillings w.store loanID).take m) }
          else l)) := by
  obtain ⟨k, hk, hpre, hstore, hout⟩ := MakePayment_spec env loanID P w hfind
  have hm : m < (unpaidBillings w.store loanID).length := (List.getElem?_eq_some.mp hN).1
  have hkm : k = m := by
    rcases Nat.lt_trichotomy k m with hlt | heq | hgt
    · exfalso
      rcases hout with ⟨hstop, _, _⟩ | ⟨b, e', hb, _, herr, _, _⟩
      · rcases hstop with hend | ⟨b, hb, hshort⟩
        · omega
        · exact absurd (hcover k b (by omega) hb) (not_le.mpr hshort)
      · rw [hok k b hlt hb] at herr
        cases herr
    · exact heq
    · exfalso
      have := (hpre m bN hgt hN).2
      rw [hfail] at this
      cases this
  subst hkm
  rcases hout with ⟨hstop, _, _⟩ | ⟨b, e', hb, _, herr, hres, hcalls⟩
  · exfalso
    rcases hstop with hend | ⟨b, hb, hshort⟩
    · omega
    · exact absurd (hcover k b (le_refl _) hb) (not_le.mpr hshort)
  · rw [hN] at hb
    cases hb
    rw [hfail] at herr
    cases herr
    refine ⟨hres, hcalls, hstore, by rw [hstore]; rfl, by rw [hstore]; rfl, ?_, ?_, ?_⟩
    · intro r hr hid
      rw [hstore]
      exact billing_untouched _ _ r hr hid
    · intro r hr hid
      rw [hstore]
      exact installment_untouched _ _ r hr hid
    · intro hexact
      rw [hstore]
      simp only [paidStore]
      apply List.map_congr_left
      intro l hl
      unfold loanAfter
      by_cases hid : l.ID = loanID
      · simp only [hid, if_true]
        rw [remaining_exact env.dbSub l.OutstandingAmount _ k hk (hexact l hl hid)]
      · simp only [hid, if_false]

/-- Witness of the amended C7: three billings of 110,000, a payment of
330,000, the commit of the second atomic step fails: the error is returned,
only the first payment is recorded and the outstanding amount is lowered by
the first billing only. -/
theorem C7_amended_failure_keeps_earlier_payments_witness :
    (MakePayment demoFailingEnv "L" 330000 demoBilled).1 =
      Run.done (Message.empty, some "commit failed") ∧
    (MakePayment demoFailingEnv "L" 330000 demoBilled).2.store.payments =
      [⟨"p1", "b1", 110000, 30⟩] ∧
    (MakePayment demoFailingEnv "L" 330000 demoBilled).2.store.loans =
      [{ demoLoan with OutstandingAmount := 5390000 }] ∧
    (⟨"b2", "i2", 110000, 9, BillingStatus.PendingBilling⟩ : Billing) ∈
      (MakePayment demoFailingEnv "L" 330000 demoBilled).2.store.billings :=
  match C7_amended_failure_keeps_earlier_payments demoFailingEnv "L" 330000 demoBilled 1
      ⟨"b2", "i2", 110000, 9, BillingStatus.PendingBilling⟩ "commit failed" rfl
      (by rw [demo_unpaid]; rfl)
      (fun i b hi hb => by
        rw [demo_unpaid] at hb ⊢
        have : i = 0 ∨ i = 1 := by omega
        rcases this with rfl | rfl
        · simp only [demoBillings, List.getElem?_cons_zero, Option.some.injEq] at hb
          subst hb
          simp only [List.take_zero, remaining, List.foldl_nil]
          norm_num
        · simp only [demoBillings, List.getElem?_cons_succ, List.getElem?_cons_zero,
            Option.some.injEq] at hb
          subst hb
          simp only [demoBillings, List.take_succ_cons, List.take_zero, remaining,
            List.foldl_cons, List.foldl_nil, demoFailingEnv, f64sub_demo.2.2.2.2.1]
          norm_num)
      (fun i b hi hb => by
        have hi0 : i = 0 := by omega
        subst hi0
        rw [demo_unpaid] at hb
        simp only [demoBillings, List.getElem?_cons_zero, Option.some.injEq] at hb
        subst hb
        simp [payStepError, demoFailingEnv, PayFaults.none, installmentsWithID, demoBilled,
          demoInstallments])
      (by simp [payStepError, demoFailingEnv, PayFaults.none, installmentsWithID, demoBilled,
            demoInstallments]) with
  | ⟨h1, _, _, hpay, hloans, hbill, _⟩ => by
    rw [demo_unpaid] at hpay hloans hbill
    refine ⟨h1, ?_, ?_, ?_⟩
    · rw [hpay]
      simp [demoBilled, demoBillings, paymentsFor, newPayment, demoFailingEnv]
    · rw [hloans]
      simp [demoBilled, demoBillings, demoLoan, loanAfter, remaining, demoFailingEnv,
        f64sub_demo.2.2.2.2.2.1]
    · apply hbill
      · simp [demoBilled, demoBillings]
      · simp [demoBillings]

/-- C9, counterexample. A loan created with principal 0 has a billing of amount
0 outstanding; MakePayment with amount 0 pays it: a Payment is recorded and
the billing and its installment become Paid. -/
theorem C9_counterexample :
    MakePayment demoPayEnv "Z" 0 zeroBilled =
      (Run.done (Message.paid 1 0, none),
       ⟨⟨zeroBilled.store.loans,
          [⟨"z1", "Z", 1, 0, 7, some 2, InstallmentStatus.Paid⟩],
          [⟨"bz", "z1", 0, 2, BillingStatus.PaidBilling⟩],
          [⟨"p1", "bz", 0, 30⟩]⟩,
        [Call.FindUnpaidBillings "Z",
         Call.SavePaymentAndUpdateState ⟨"p1", "bz", 0, 30⟩
           ⟨"bz", "z1", 0, 2, BillingStatus.PendingBilling⟩,
         Call.FindLoanByID "Z"]⟩) ∧
    (MakePayment demoPayEnv "Z" 0 zeroBilled).2.store ≠ zeroBilled.store := by
  have h : MakePayment demoPayEnv "Z" 0 zeroBilled =
      (Run.done (Message.paid 1 0, none),
       ⟨⟨zeroBilled.store.loans,
          [⟨"z1", "Z", 1, 0, 7, some 2, InstallmentStatus.Paid⟩],
          [⟨"bz", "z1", 0, 2, BillingStatus.PaidBilling⟩],
          [⟨"p1", "bz", 0, 30⟩]⟩,
        [Call.FindUnpaidBillings "Z",
         Call.SavePaymentAndUpdateState ⟨"p1", "bz", 0, 30⟩
           ⟨"bz", "z1", 0, 2, BillingStatus.PendingBilling⟩,
         Call.FindLoanByID "Z"]⟩) := by
    decide!
  refine ⟨h, ?_⟩
  rw [h]
  simp [zeroBilled]

/-- Without unpaid billings, or with amount 0 while every unpaid billing has a
positive amount, `MakePayment` only queries the unpaid billings. -/
theorem MakePayment_noop (env : PayEnv) (loanID : String) (P : Money) (w : World)
    (h : (P = 0 ∧ ∀ b ∈ unpaidBillings w.store loanID, 0 < b.Amount) ∨
      unpaidBillings w.store loanID = []) :
    (MakePayment env loanID P w).2.store = w.store ∧
    (MakePayment env loanID P w).2.calls = w.calls ++ [Call.FindUnpaidBillings loanID] ∧
    (MakePayment env loanID P w).1 =
      Run.done
        (match env.findFault with
         | some e => (Message.empty, some e)
         | none =>
           if unpaidBillings w.store loanID = [] then (Message.noBills, none)
           else (Message.insufficient, none)) := by
  cases hf : env.findFault with
  | some e =>
    unfold MakePayment FindUnpaidBillings
    simp [hf, World.log]
  | none =>
    obtain ⟨k, hk, hpre, hstore, hout⟩ := MakePayment_spec env loanID P w hf
    have hfirst : ∀ b, (unpaidBillings w.store loanID)[0]? = some b →
        ¬ b.Amount ≤ remaining env.sub P ((unpaidBillings w.store loanID).take 0) := by
      intro b hb hle
      simp only [List.take_zero, remaining, List.foldl_nil] at hle
      rcases h with ⟨hP, hpos⟩ | hnil
      · have := hpos b (List.mem_iff_getElem?.mpr ⟨0, hb⟩)
        rw [hP] at hle
        linarith
      · rw [hnil] at hb
        simp at hb
    have hk0 : k = 0 := by
      by_contra hne
      have hlt : 0 < (unpaidBillings w.store loanID).length := by omega
      exact hfirst _ (List.getElem?_eq_getElem hlt) (hpre 0 _ (by omega)
        (List.getElem?_eq_getElem hlt)).1
    subst hk0
    rcases hout with ⟨_, hcalls, hres⟩ | ⟨b, e, hb, hsum, _, _, _⟩
    · refine ⟨by rw [hstore]; simp [paidStore_nil], by rw [hcalls]; simp [payCalls], ?_⟩
      rw [hres]
      by_cases hnil : unpaidBillings w.store loanID = []
      · simp [hnil]
      · simp [hnil]
    · exact absurd hsum (hfirst b hb)

theorem repeatPayment_store (envs : Nat → PayEnv) (loanID : String) (P : Money) (w : World)
    (h : (P = 0 ∧ ∀ b ∈ unpaidBillings w.store loanID, 0 < b.Amount) ∨
      unpaidBillings w.store loanID = []) (n : Nat) :
    (repeatPayment envs loanID P n w).store = w.store := by
  induction n with
  | zero => rfl
  | succ n ih =>
    have h' : (P = 0 ∧ ∀ b ∈ unpaidBillings (repeatPayment envs loanID P n w).store loanID,
        0 < b.Amount) ∨ unpaidBillings (repeatPayment envs loanID P n w).store loanID = [] := by
      rw [ih]
      exact h
    simp only [repeatPayment]
    rw [(MakePayment_noop (envs n) loanID P _ h').1, ih]

/-- C9, amended. Calling MakePayment with amount 0 while every unpaid billing
of the loan has a positive amount, or with any amount when the loan has no
unpaid billings, changes no state: the store is unchanged and the only
repository call is the query for unpaid billings; the result is the error of a
failed query, or else the no-bills message when nothing is unpaid and the
insufficiency message otherwise. Repeating the call any number of times leaves
the store unchanged and each repetition returns the same result. -/
theorem C9_amended_no_state_change (env : PayEnv) (loanID : String) (P : Money) (w : World)
    (h : (P = 0 ∧ ∀ b ∈ unpaidBillings w.store loanID, 0 < b.Amount) ∨
      unpaidBillings w.store loanID = []) :
    (MakePayment env loanID P w).2.store = w.store ∧
    (MakePayment env loanID P w).2.calls = w.calls ++ [Call.FindUnpaidBillings loanID] ∧
    (MakePayment env loanID P w).1 =
      Run.done
        (match env.findFault with
         | some e => (Message.empty, some e)
         | none =>
           if unpaidBillings w.store loanID = [] then (Message.noBills, none)
           else (Message.insufficient, none)) ∧
    (∀ (envs : Nat → PayEnv) (n : Nat),
      (repeatPayment envs loanID P n w).store = w.store ∧
      (MakePayment (envs n) loanID P (repeatPayment envs loanID P n w)).1 =
        Run.done
          (match (envs n).findFault with
           | some e => (Message.empty, some e)
           | none =>
             if unpaidBillings w.store loanID = [] then (Message.noBills, none)
             else (Message.insufficient, none))) := by
  obtain ⟨h1, h2, h3⟩ := MakePayment_noop env loanID P w h
  refine ⟨h1, h2, h3, fun envs n => ?_⟩
  have hs := repeatPayment_store envs loanID P w h n
  have h' : (P = 0 ∧ ∀ b ∈ unpaidBillings (repeatPayment envs loanID P n w).store loanID,
      0 < b.Amount) ∨ unpaidBillings (repeatPayment envs loanID P n w).store loanID = [] := by
    rw [hs]
    exact h
  refine ⟨hs, ?_⟩
  rw [(MakePayment_noop (envs n) loanID P _ h').2.2, hs]

/-- Witness of the amended C9: amount 0 against three billings of 110,000. -/
theorem C9_amended_no_state_change_witness :
    (MakePayment demoPayEnv "L" 0 demoBilled).2.store = demoBilled.store ∧
    (MakePayment demoPayEnv "L" 0 demoBilled).2.calls =
      demoBilled.calls ++ [Call.FindUnpaidBillings "L"] :=
  match C9_amended_no_state_change demoPayEnv "L" 0 demoBilled
      (Or.inl ⟨rfl, fun b hb => by
        rw [demo_unpaid] at hb
        simp only [demoBillings, List.mem_cons, List.mem_singleton, List.not_mem_nil,
          or_false] at hb
        rcases hb with rfl | rfl | rfl <;> norm_num⟩) with
  | ⟨h1, h2, _, _⟩ => ⟨h1, h2⟩

/-! ## Billing cycle -/

theorem savedBillings_append (a b : List Call) :
    savedBillings (a ++ b) = savedBillings a ++ savedBillings b := by
  unfold savedBillings
  rw [List.filterMap_append]

theorem savedBillings_save (b : Billing) (x : String) :
    savedBillings [Call.SaveBilling b x] = [(b, x)] := rfl

theorem savedBillings_mark (b : Billing) :
    savedBillings [Call.UpdateBillingStatus b] = [] := rfl

/-- The delinquency evaluation touches neither installments, billings nor
payments and makes no `SaveBilling` call. -/
theorem updateDelinquencyStatus_frame (env : DelinquencyEnv) (loanID : String)
    (currentTerm : Int) (w : World) :
    (updateDelinquencyStatus env loanID currentTerm w).2.store.installments =
        w.store.installments ∧
      (updateDelinquencyStatus env loanID currentTerm w).2.store.billings = w.store.billings ∧
      (updateDelinquencyStatus env loanID currentTerm w).2.store.payments = w.store.payments ∧
      savedBillings (updateDelinquencyStatus env loanID currentTerm w).2.calls =
        savedBillings w.calls := by
  unfold updateDelinquencyStatus GetInstallmentSchedule UpdateDelinquency
  cases env.scheduleFault <;> cases env.updateFault <;> simp only [World.log]
  all_goals (repeat' split)
  all_goals simp [savedBillings_append, savedBillings]

/-- The delinquency evaluation does not panic when the schedule of the loan
has at least `currentTerm - 1` rows. -/
theorem updateDelinquencyStatus_no_panic (env : DelinquencyEnv) (loanID : String)
    (currentTerm : Int) (w : World)
    (hreach : currentTerm - 1 ≤ ((loanRows w.store loanID).length : Int)) :
    (updateDelinquencyStatus env loanID currentTerm w).1 ≠ Run.panic := by
  have hlen : ((installmentSchedule w.store loanID).insertionSort termLE).length =
      (loanRows w.store loanID).length := by
    unfold installmentSchedule
    rw [List.length_insertionSort, List.length_insertionSort]
  unfold updateDelinquencyStatus GetInstallmentSchedule UpdateDelinquency
  by_cases hlt : currentTerm < 2
  · simp [hlt]
  · have h1 : (currentTerm - 2).toNat <
        ((installmentSchedule w.store loanID).insertionSort termLE).length := by
      rw [hlen]; omega
    have h2 : (currentTerm - 3).toNat <
        ((installmentSchedule w.store loanID).insertionSort termLE).length := by
      rw [hlen]; omega
    cases env.scheduleFault with
    | some e => simp [hlt]
    | none =>
      simp only [hlt, if_false, List.getElem?_eq_getElem h1, List.getElem?_eq_getElem h2]
      cases env.updateFault
      all_goals (repeat' split)
      all_goals simp

theorem resetPending_nil : resetPending [] = id := by
  funext b
  simp [resetPending]

theorem resetPending_comp (ids₁ ids₂ : List String) (b : Billing) :
    resetPending ids₂ (resetPending ids₁ b) = resetPending (ids₁ ++ ids₂) b := by
  by_cases h1 : b.ID ∈ ids₁ <;> by_cases h2 : b.ID ∈ ids₂ <;>
    simp [resetPending, h1, h2]

theorem resetPending_pending (ids : List String) (b : Billing)
    (h : b.Status = BillingStatus.PendingBilling) : resetPending ids b = b := by
  unfold resetPending
  split
  · cases b
    simp_all
  · rfl

theorem resetPending_installment (ids : List String) (b : Billing) :
    (resetPending ids b).InstallmentID = b.InstallmentID := by
  unfold resetPending
  split <;> rfl

theorem setBillingStatus_newBilling (uuid : String) (now : Time) (d : Installment) :
    setBillingStatus (newBilling uuid now d).ID (newBilling uuid now d).Status =
      resetPending [uuid] := by
  funext b
  simp [setBillingStatus, resetPending, newBilling]

/-- One iteration of the billing loop in which the delinquency evaluation
returns and the billing is persisted. -/
theorem billingLoop_step (env : BillingEnv) (d : Installment) (rest : List Installment)
    (i cnt : Nat) (w : World)
    (hd : (updateDelinquencyStatus (env.step i).delinquency d.LoanID d.TermNumber w).1 ≠
      Run.panic)
    (hs : (env.step i).saveFault = none) :
    ∃ (ids₁ : List String) (w' : World),
      billingLoop env (d :: rest) i cnt w =
        billingLoop env rest (i + 1) (cnt + (if stepCompleted env i then 1 else 0)) w' ∧
      w'.store.installments = w.store.installments ∧
      w'.store.payments = w.store.payments ∧
      w'.store.billings =
        (w.store.billings ++ [newBilling (env.step i).uuid env.now d]).map
          (resetPending ids₁) ∧
      savedBillings w'.calls =
        savedBillings w.calls ++ [(newBilling (env.step i).uuid env.now d, d.ID)] := by
  obtain ⟨f1, f2, f3, f4⟩ :=
    updateDelinquencyStatus_frame (env.step i).delinquency d.LoanID d.TermNumber w
  cases hu : updateDelinquencyStatus (env.step i).delinquency d.LoanID d.TermNumber w with
  | mk r w1 =>
    rw [hu] at hd f1 f2 f3 f4
    simp only at hd f1 f2 f3 f4
    cases r with
    | panic => exact absurd rfl hd
    | done err =>
      cases hn : (env.step i).notifyError with
      | some e =>
        refine ⟨[], (SaveBilling none (newBilling (env.step i).uuid env.now d) d.ID w1).2,
          ?_, ?_, ?_, ?_, ?_⟩
        · rw [billingLoop]
          simp only [hu, SaveBilling, hs, hn, stepCompleted, Option.isNone_some, Bool.false_and,
            if_false, Nat.add_zero, Bool.false_eq_true]
        · simpa [World.log, SaveBilling] using f1
        · simpa [World.log, SaveBilling] using f3
        · simp [World.log, SaveBilling, f2, resetPending_nil]
        · simp [World.log, SaveBilling, savedBillings_append, f4, savedBillings_save]
      | none =>
        cases hm : (env.step i).markFault with
        | some e =>
          refine ⟨[], (UpdateBillingStatus (some e) (newBilling (env.step i).uuid env.now d)
            (SaveBilling none (newBilling (env.step i).uuid env.now d) d.ID w1).2).2,
            ?_, ?_, ?_, ?_, ?_⟩
          · rw [billingLoop]
            simp only [hu, SaveBilling, hs, hn, hm, UpdateBillingStatus, stepCompleted,
              Option.isNone_some, Bool.and_false, if_false, Nat.add_zero, Bool.false_eq_true]
          · simpa [World.log, SaveBilling, UpdateBillingStatus] using f1
          · simpa [World.log, SaveBilling, UpdateBillingStatus] using f3
          · simp [World.log, SaveBilling, UpdateBillingStatus, f2, resetPending_nil]
          · simp [World.log, SaveBilling, UpdateBillingStatus, savedBillings_append, f4,
              savedBillings_save, savedBillings_mark]
            rfl
        | none =>
          refine ⟨[(env.step i).uuid],
            (UpdateBillingStatus none (newBilling (env.step i).uuid env.now d)
              (SaveBilling none (newBilling (env.step i).uuid env.now d) d.ID w1).2).2,
            ?_, ?_, ?_, ?_, ?_⟩
          · rw [billingLoop]
            simp only [hu, SaveBilling, hs, hn, hm, UpdateBillingStatus, stepCompleted,
              Option.isNone_none, Bool.and_self, if_true]
          · simpa [World.log, SaveBilling, UpdateBillingStatus] using f1
          · simpa [World.log, SaveBilling, UpdateBillingStatus] using f3
          · simp [World.log, SaveBilling, UpdateBillingStatus, f2, setBillingStatus_newBilling]
          · simp [World.log, SaveBilling, UpdateBillingStatus, savedBillings_append, f4,
              savedBillings_save, savedBillings_mark]
            rfl

theorem newBillingsFor_pending (env : BillingEnv) (i : Nat) (due : List Installment)
    (ids : List String) :
    (newBillingsFor env i due).map (resetPending ids) = newBillingsFor env i due := by
  induction due generalizing i with
  | nil => rfl
  | cons d rest ih =>
    simp only [newBillingsFor, List.map_cons, ih]
    rw [resetPending_pending ids _ rfl]

/-- Full description of the billing loop.  Some number `j` of leading due
installments got its billing persisted.  Then the loop either ran to the end,
or `SaveBilling` failed for installment `j`, or the delinquency evaluation of
installment `j` panicked.  Installments and payments are untouched; the
billing table is the old one (rows whose id was marked again reset to Pending)
followed by the `j` new billings. -/
theorem billingLoop_spec (env : BillingEnv) (due : List Installment) :
    ∀ (i cnt : Nat) (w : World),
    ∃ (j : Nat) (ids : List String), j ≤ due.length ∧
      (∀ t, t < j → (env.step (i + t)).saveFault = none) ∧
      (billingLoop env due i cnt w).2.store.installments = w.store.installments ∧
      (billingLoop env due i cnt w).2.store.payments = w.store.payments ∧
      (billingLoop env due i cnt w).2.store.billings =
        w.store.billings.map (resetPending ids) ++ newBillingsFor env i (due.take j) ∧
      ((j = due.length ∧
          (billingLoop env due i cnt w).1 = Run.done (cnt + completedFrom env i j, none) ∧
          savedBillings (billingLoop env due i cnt w).2.calls =
            savedBillings w.calls ++ saveCallsFor env i due) ∨
       (∃ e, j < due.length ∧ (env.step (i + j)).saveFault = some e ∧
          (billingLoop env due i cnt w).1 = Run.done (cnt + completedFrom env i j, some e) ∧
          savedBillings (billingLoop env due i cnt w).2.calls =
            savedBillings w.calls ++ saveCallsFor env i (due.take (j + 1))) ∨
       (∃ d w0, due[j]? = some d ∧ w0.store.installments = w.store.installments ∧
          (updateDelinquencyStatus (env.step (i + j)).delinquency d.LoanID d.TermNumber w0).1 =
            Run.panic ∧
          (billingLoop env due i cnt w).1 = Run.panic ∧
          savedBillings (billingLoop env due i cnt w).2.calls =
            savedBillings w.calls ++ saveCallsFor env i (due.take j))) := by
  induction due with
  | nil =>
    intro i cnt w
    refine ⟨0, [], le_refl _, fun t ht => absurd ht (by omega), rfl, rfl, ?_, Or.inl ⟨rfl, ?_, ?_⟩⟩
    · simp [billingLoop, newBillingsFor, resetPending_nil]
    · simp [billingLoop, completedFrom]
    · simp [billingLoop, saveCallsFor]
  | cons d rest ih =>
    intro i cnt w
    obtain ⟨f1, f2, f3, f4⟩ :=
      updateDelinquencyStatus_frame (env.step i).delinquency d.LoanID d.TermNumber w
    by_cases hp : (updateDelinquencyStatus (env.step i).delinquency d.LoanID d.TermNumber w).1 =
        Run.panic
    · have hres : billingLoop env (d :: rest) i cnt w =
          (Run.panic,
            (updateDelinquencyStatus (env.step i).delinquency d.LoanID d.TermNumber w).2) := by
        rw [billingLoop]
        cases hu : updateDelinquencyStatus (env.step i).delinquency d.LoanID d.TermNumber w with
        | mk r w1 =>
          rw [hu] at hp
          simp only at hp
          subst hp
          rfl
      rw [hres]
      refine ⟨0, [], Nat.zero_le _, fun t ht => absurd ht (by omega), f1, f3, ?_,
        Or.inr (Or.inr ⟨d, w, by simp, rfl, by simpa using hp, rfl, ?_⟩)⟩
      · simp [f2, newBillingsFor, resetPending_nil]
      · simp [f4, saveCallsFor]
    · cases hs : (env.step i).saveFault with
      | some e =>
        have hres : billingLoop env (d :: rest) i cnt w =
            (Run.done (cnt, some e),
              (SaveBilling (some e) (newBilling (env.step i).uuid env.now d) d.ID
                (updateDelinquencyStatus (env.step i).delinquency d.LoanID d.TermNumber
                  w).2).2) := by
          rw [billingLoop]
          cases hu : updateDelinquencyStatus (env.step i).delinquency d.LoanID d.TermNumber
              w with
          | mk r w1 =>
            rw [hu] at hp
            cases r with
            | panic => exact absurd rfl hp
            | done err => simp only [hs, SaveBilling]
        rw [hres]
        refine ⟨0, [], Nat.zero_le _, fun t ht => absurd ht (by omega), ?_, ?_, ?_,
          Or.inr (Or.inl ⟨e, by simp, by simpa using hs, by simp [completedFrom], ?_⟩)⟩
        · simpa [SaveBilling, World.log] using f1
        · simpa [SaveBilling, World.log] using f3
        · simp [SaveBilling, World.log, f2, newBillingsFor, resetPending_nil]
        · simp [SaveBilling, World.log, savedBillings_append, f4, savedBillings_save,
            saveCallsFor]
      | none =>
        obtain ⟨ids₁, w', hstep, g1, g3, g2, g4⟩ :=
          billingLoop_step env d rest i cnt w hp hs
        obtain ⟨j, ids, hj, hsave, h1, h3, h2, hout⟩ :=
          ih (i + 1) (cnt + (if stepCompleted env i then 1 else 0)) w'
        have hidx : ∀ t, i + 1 + t = i + (t + 1) := fun t => by omega
        have hcount : ∀ n, cnt + (if stepCompleted env i then 1 else 0) +
            completedFrom env (i + 1) n = cnt + completedFrom env i (n + 1) := by
          intro n
          simp only [completedFrom]
          omega
        rw [hstep]
        refine ⟨j + 1, ids₁ ++ ids, by simpa using hj, ?_, by rw [h1, g1], by rw [h3, g3],
          ?_, ?_⟩
        · intro t ht
          cases t with
          | zero => simpa using hs
          | succ t =>
            have := hsave t (by omega)
            rwa [hidx] at this
        · rw [h2, g2]
          simp only [List.map_append, List.map_map, List.map_cons, List.map_nil,
            List.take_succ_cons, newBillingsFor, List.append_assoc, List.singleton_append]
          rw [resetPending_comp, resetPending_pending (ids₁ ++ ids) _ rfl]
          congr 1
          apply List.map_congr_left
          intro b _
          exact resetPending_comp ids₁ ids b
        · rcases hout with ⟨hend, hres, hcalls⟩ | ⟨e, hlt, hfault, hres, hcalls⟩ |
              ⟨d', w0, hd', hw0, hpanic, hres, hcalls⟩
          · refine Or.inl ⟨by simp [hend], ?_, ?_⟩
            · rw [hres, hcount]
            · rw [hcalls, g4]
              simp [saveCallsFor]
          · refine Or.inr (Or.inl ⟨e, by simpa using hlt, ?_, ?_, ?_⟩)
            · rwa [hidx] at hfault
            · rw [hres, hcount]
            · rw [hcalls, g4]
              simp [saveCallsFor]
          · refine Or.inr (Or.inr ⟨d', w0, by simpa using hd', by rw [hw0, g1], ?_, hres, ?_⟩)
            · rwa [hidx] at hpanic
            · rw [hcalls, g4]
              simp [saveCallsFor]

theorem completedFrom_countP (env : BillingEnv) (i n : Nat) :
    completedFrom env i n = (List.range n).countP (fun t => stepCompleted env (i + t)) := by
  induction n generalizing i with
  | zero => rfl
  | succ n ih =>
    rw [completedFrom, ih (i + 1), List.range_succ_eq_map, List.countP_cons, List.countP_map]
    have hfun : ((fun t => stepCompleted env (i + t)) ∘ Nat.succ) =
        (fun t => stepCompleted env (i + 1 + t)) := by
      funext t
      have : i + (t + 1) = i + 1 + t := by omega
      simp only [Function.comp, Nat.succ_eq_add_one, this]
    rw [hfun]
    simp only [Nat.add_zero]
    omega

theorem newBillingsFor_length (env : BillingEnv) (i : Nat) (due : List Installment) :
    (newBillingsFor env i due).length = due.length := by
  induction due generalizing i with
  | nil => rfl
  | cons d rest ih => simp [newBillingsFor, ih]

theorem newBillingsFor_getElem? (env : BillingEnv) (i : Nat) (due : List Installment) (t : Nat)
    (d : Installment) (h : due[t]? = some d) :
    (newBillingsFor env i due)[t]? = some (newBilling (env.step (i + t)).uuid env.now d) := by
  induction due generalizing i t with
  | nil => simp at h
  | cons a rest ih =>
    cases t with
    | zero =>
      simp only [List.getElem?_cons_zero, Option.some.injEq] at h
      subst h
      simp [newBillingsFor]
    | succ t =>
      simp only [List.getElem?_cons_succ] at h
      simp only [newBillingsFor, List.getElem?_cons_succ]
      rw [ih (i + 1) t h]
      have : i + 1 + t = i + (t + 1) := by omega
      rw [this]

theorem loanRows_congr (s s' : Store) (loanID : String)
    (h : s'.installments = s.installments) : loanRows s' loanID = loanRows s loanID := by
  unfold loanRows
  rw [h]

theorem FindDueInstallments_ok (env : BillingEnv) (w : World) (hfind : env.findFault = none) :
    FindDueInstallments env.findFault env.findNow w =
      (Except.ok (dueInstallments w.store env.findNow),
        ⟨w.store, w.calls ++ [Call.FindDueInstallments]⟩) := by
  unfold FindDueInstallments
  rw [hfind]
  rfl

/-- Description of `CreateBilling` when the query for due installments
succeeds, in terms of the number `j` of billings persisted. -/
theorem CreateBilling_spec (env : BillingEnv) (w : World) (hfind : env.findFault = none) :
    ∃ (j : Nat) (ids : List String), j ≤ (dueInstallments w.store env.findNow).length ∧
      (∀ t, t < j → (env.step t).saveFault = none) ∧
      (CreateBilling env w).2.store.billings =
        w.store.billings.map (resetPending ids) ++
          newBillingsFor env 0 ((dueInstallments w.store env.findNow).take j) ∧
      ((j = (dueInstallments w.store env.findNow).length ∧
          (CreateBilling env w).1 =
            Run.done ((List.range j).countP (stepCompleted env), none) ∧
          savedBillings (CreateBilling env w).2.calls =
            savedBillings w.calls ++ saveCallsFor env 0 (dueInstallments w.store env.findNow)) ∨
       (∃ e, j < (dueInstallments w.store env.findNow).length ∧
          (env.step j).saveFault = some e ∧
          (CreateBilling env w).1 =
            Run.done ((List.range j).countP (stepCompleted env), some e) ∧
          savedBillings (CreateBilling env w).2.calls =
            savedBillings w.calls ++
              saveCallsFor env 0 ((dueInstallments w.store env.findNow).take (j + 1))) ∨
       (∃ d w0, (dueInstallments w.store env.findNow)[j]? = some d ∧
          w0.store.installments = w.store.installments ∧
          (updateDelinquencyStatus (env.step j).delinquency d.LoanID d.TermNumber w0).1 =
            Run.panic ∧
          (CreateBilling env w).1 = Run.panic)) := by
  have hcb : CreateBilling env w =
      billingLoop env (dueInstallments w.store env.findNow) 0 0
        ⟨w.store, w.calls ++ [Call.FindDueInstallments]⟩ := by
    unfold CreateBilling
    rw [FindDueInstallments_ok env w hfind]
  obtain ⟨j, ids, hj, hsave, _, _, hb, hout⟩ :=
    billingLoop_spec env (dueInstallments w.store env.findNow) 0 0
      ⟨w.store, w.calls ++ [Call.FindDueInstallments]⟩
  have hlog : savedBillings (w.calls ++ [Call.FindDueInstallments]) = savedBillings w.calls := by
    rw [savedBillings_append]
    simp [savedBillings]
  simp only [Nat.zero_add, completedFrom_countP, hlog] at hsave hb hout
  rw [hcb]
  exact ⟨j, ids, hj, hsave, hb, by
    rcases hout with h | ⟨e, h⟩ | ⟨d, w0, h1, h2, h3, h4, _⟩
    · exact Or.inl h
    · exact Or.inr (Or.inl ⟨e, h⟩)
    · exact Or.inr (Or.inr ⟨d, w0, h1, h2, h3, h4⟩)⟩

theorem billings_shape (env : BillingEnv) (old : List Billing) (ids : List String)
    (due : List Installment) (j : Nat) (hj : j ≤ due.length) (tbl : List Billing)
    (h : tbl = old.map (resetPending ids) ++ newBillingsFor env 0 (due.take j)) :
    tbl.length = old.length + j ∧
      ∀ t d, t < j → due[t]? = some d →
        tbl[old.length + t]? = some (newBilling (env.step t).uuid env.now d) := by
  subst h
  constructor
  · simp [newBillingsFor_length, hj]
  · intro t d ht hd
    rw [List.getElem?_append_right (by simp)]
    have ht' : (due.take j)[t]? = some d := by
      rw [List.getElem?_take_of_lt ht]
      exact hd
    have := newBillingsFor_getElem? env 0 (due.take j) t d ht'
    simpa using this

theorem no_panic_of_reach (denv : DelinquencyEnv) (w w0 : World) (d : Installment)
    (hreach : d.TermNumber - 1 ≤ ((loanRows w.store d.LoanID).length : Int))
    (hw0 : w0.store.installments = w.store.installments) :
    (updateDelinquencyStatus denv d.LoanID d.TermNumber w0).1 ≠ Run.panic := by
  apply updateDelinquencyStatus_no_panic
  rw [loanRows_congr _ _ _ hw0]
  exact hreach

theorem stepWorld_installments (env : BillingEnv) (i : Nat) (d : Installment) (w : World) :
    (stepWorld env i d w).store.installments = w.store.installments := by
  obtain ⟨f1, _, _, _⟩ :=
    updateDelinquencyStatus_frame (env.step i).delinquency d.LoanID d.TermNumber w
  unfold stepWorld
  cases (env.step i).notifyError with
  | some e => simpa [World.log, SaveBilling] using f1
  | none =>
    cases (env.step i).markFault with
    | some e => simpa [World.log, SaveBilling, UpdateBillingStatus] using f1
    | none => simpa [World.log, SaveBilling, UpdateBillingStatus] using f1

theorem stepWorld_payments (env : BillingEnv) (i : Nat) (d : Installment) (w : World) :
    (stepWorld env i d w).store.payments = w.store.payments := by
  obtain ⟨_, _, f3, _⟩ :=
    updateDelinquencyStatus_frame (env.step i).delinquency d.LoanID d.TermNumber w
  unfold stepWorld
  cases (env.step i).notifyError with
  | some e => simpa [World.log, SaveBilling] using f3
  | none =>
    cases (env.step i).markFault with
    | some e => simpa [World.log, SaveBilling, UpdateBillingStatus] using f3
    | none => simpa [World.log, SaveBilling, UpdateBillingStatus] using f3

theorem stepsWorld_frame (env : BillingEnv) (due : List Installment) :
    ∀ (i : Nat) (w : World),
      (stepsWorld env i due w).store.installments = w.store.installments ∧
      (stepsWorld env i due w).store.payments = w.store.payments := by
  induction due with
  | nil => intro i w; exact ⟨rfl, rfl⟩
  | cons d rest ih =>
    intro i w
    simp only [stepsWorld]
    rw [(ih (i + 1) _).1, (ih (i + 1) _).2, stepWorld_installments, stepWorld_payments]
    exact ⟨rfl, rfl⟩

/-- One iteration of the billing loop in which the delinquency evaluation
returns and the billing is persisted continues the loop from `stepWorld`. -/
theorem billingLoop_step_world (env : BillingEnv) (d : Installment) (rest : List Installment)
    (i cnt : Nat) (w : World)
    (hd : (updateDelinquencyStatus (env.step i).delinquency d.LoanID d.TermNumber w).1 ≠
      Run.panic)
    (hs : (env.step i).saveFault = none) :
    billingLoop env (d :: rest) i cnt w =
      billingLoop env rest (i + 1) (cnt + (if stepCompleted env i then 1 else 0))
        (stepWorld env i d w) := by
  rw [billingLoop]
  unfold stepWorld
  cases hu : updateDelinquencyStatus (env.step i).delinquency d.LoanID d.TermNumber w with
  | mk r w1 =>
    rw [hu] at hd
    cases r with
    | panic => exact absurd rfl hd
    | done err =>
      cases hn : (env.step i).notifyError with
      | some e =>
        simp only [SaveBilling, hs, hn, stepCompleted, Option.isNone_some, Bool.false_and,
          if_false, Nat.add_zero, Bool.false_eq_true]
      | none =>
        cases hm : (env.step i).markFault with
        | some e =>
          simp only [SaveBilling, hs, hn, hm, UpdateBillingStatus, stepCompleted,
            Option.isNone_some, Bool.and_false, if_false, Nat.add_zero, Bool.false_eq_true]
        | none =>
          simp only [SaveBilling, hs, hn, hm, UpdateBillingStatus, stepCompleted,
            Option.isNone_none, Bool.and_self, if_true]

/-- An iteration whose delinquency evaluation returns and whose `SaveBilling`
fails ends the loop at once. -/
theorem billingLoop_step_fail (env : BillingEnv) (d : Installment) (rest : List Installment)
    (i cnt : Nat) (w : World) (e : Error)
    (hd : (updateDelinquencyStatus (env.step i).delinquency d.LoanID d.TermNumber w).1 ≠
      Run.panic)
    (hs : (env.step i).saveFault = some e) :
    billingLoop env (d :: rest) i cnt w =
      (Run.done (cnt, some e),
        (SaveBilling (some e) (newBilling (env.step i).uuid env.now d) d.ID
          (updateDelinquencyStatus (env.step i).delinquency d.LoanID d.TermNumber w).2).2) := by
  rw [billingLoop]
  cases hu : updateDelinquencyStatus (env.step i).delinquency d.LoanID d.TermNumber w with
  | mk r w1 =>
    rw [hu] at hd
    cases r with
    | panic => exact absurd rfl hd
    | done err => simp only [hs, SaveBilling]

/-- The loop over `pre ++ rest`, when every iteration for `pre` has its
delinquency evaluation return and its billing persisted, continues with `rest`
from `stepsWorld`. -/
theorem billingLoop_append (env : BillingEnv) (pre rest : List Installment) :
    ∀ (i cnt : Nat) (w : World),
      (∀ d ∈ pre, d.TermNumber - 1 ≤ ((loanRows w.store d.LoanID).length : Int)) →
      (∀ t, t < pre.length → (env.step (i + t)).saveFault = none) →
      billingLoop env (pre ++ rest) i cnt w =
        billingLoop env rest (i + pre.length) (cnt + completedFrom env i pre.length)
          (stepsWorld env i pre w) := by
  induction pre with
  | nil =>
    intro i cnt w _ _
    simp [completedFrom, stepsWorld]
  | cons d pre ih =>
    intro i cnt w hreach hs
    have hd := no_panic_of_reach (env.step i).delinquency w w d
      (hreach d (List.mem_cons_self _ _)) rfl
    have h0 : (env.step i).saveFault = none := by simpa using hs 0 (by simp)
    rw [List.cons_append, billingLoop_step_world env d (pre ++ rest) i cnt w hd h0,
      ih (i + 1) _ (stepWorld env i d w)]
    · simp only [List.length_cons, completedFrom, stepsWorld]
      have e1 : i + 1 + pre.length = i + (pre.length + 1) := by omega
      have e2 : cnt + (if stepCompleted env i then 1 else 0) +
          completedFrom env (i + 1) pre.length =
          cnt + ((if stepCompleted env i then 1 else 0) +
            completedFrom env (i + 1) pre.length) := by omega
      rw [e1, e2]
    · intro d' hd'
      rw [loanRows_congr _ _ _ (stepWorld_installments env i d w)]
      exact hreach d' (List.mem_cons_of_mem _ hd')
    · intro t ht
      have := hs (t + 1) (by simp; omega)
      have e : i + 1 + t = i + (t + 1) := by omega
      rwa [e]

theorem take_append_getElem_drop (l : List Installment) (j : Nat) (d : Installment)
    (h : l[j]? = some d) : l = l.take j ++ d :: l.drop (j + 1) := by
  have hj : j < l.length := (List.getElem?_eq_some.mp h).1
  have hd : l[j] = d := (List.getElem?_eq_some.mp h).2
  rw [← hd, ← List.drop_eq_getElem_cons hj, List.take_append_drop]

theorem take_succ_of_getElem (l : List Installment) (j : Nat) (d : Installment)
    (h : l[j]? = some d) : l.take (j + 1) = l.take j ++ [d] := by
  rw [List.take_succ, h]
  rfl

/-- C8, counterexample. The only due installment is term 3 of a loan whose
schedule holds no row for terms 1 and 2, and no repository call would fail.
The delinquency evaluation indexes the schedule outside its bounds, so
CreateBilling panics: it returns nothing and persists no Billing. -/
theorem C8_counterexample :
    dueInstallments orphanWorld.store 16 =
      [⟨"x3", "X", 3, 100, 21, 16, InstallmentStatus.Pending⟩] ∧
    (∀ t, ((runAt 16 "n1").step t).saveFault = none) ∧
    CreateBilling (runAt 16 "n1") orphanWorld =
      (Run.panic,
       ⟨orphanWorld.store, [Call.FindDueInstallments, Call.GetInstallmentSchedule "X"]⟩) ∧
    (CreateBilling (runAt 16 "n1") orphanWorld).2.store.billings = [] := by
  refine ⟨by decide, fun _ => rfl, by decide, by decide⟩

/-- C8, amended. Let d_1..d_m be the due installments returned by
FindDueInstallments, and let the delinquency evaluation, the notifier and the
mark-notified step succeed or fail in any pattern. If each d_i belongs to a
loan whose schedule has at least TermNumber - 1 rows (so that the delinquency
evaluation can index it) and billing persistence succeeds for all of them,
CreateBilling returns no error, appends one Billing (Amount = AmountDue,
BillingDate = now, Status = Pending) for every d_i, in order, and returns
exactly the number of d_i whose notification and mark-notified step both
succeeded. If billing persistence first fails at d_(j+1) with error e, and
d_1..d_(j+1) belong to such loans, it returns e together with the count of
completed installments among d_1..d_j, has appended the billings of d_1..d_j
only, and stops at the failing SaveBilling call: that call is the last
repository call made, the result and the final state are those of the cycle
run over d_1..d_(j+1) alone, whatever the later installments are.
Installment and payment rows are unchanged in both cases. -/
theorem C8_amended_billing_cycle_counts_and_aborts (env : BillingEnv) (w : World)
    (hfind : env.findFault = none) :
    ((∀ d ∈ dueInstallments w.store env.findNow,
        d.TermNumber - 1 ≤ ((loanRows w.store d.LoanID).length : Int)) →
      (∀ t, t < (dueInstallments w.store env.findNow).length → (env.step t).saveFault = none) →
      (CreateBilling env w).1 =
        Run.done (((List.range (dueInstallments w.store env.findNow).length).countP
          (fun t => (env.step t).notifyError.isNone && (env.step t).markFault.isNone)), none) ∧
      (CreateBilling env w).2.store.billings.length =
        w.store.billings.length + (dueInstallments w.store env.findNow).length ∧
      (∀ t d, (dueInstallments w.store env.findNow)[t]? = some d →
        (CreateBilling env w).2.store.billings[w.store.billings.length + t]? =
          some { ID := (env.step t).uuid, InstallmentID := d.ID, Amount := d.AmountDue,
                 BillingDate := env.now, Status := BillingStatus.PendingBilling }) ∧
      savedBillings (CreateBilling env w).2.calls =
        savedBillings w.calls ++ saveCallsFor env 0 (dueInstallments w.store env.findNow) ∧
      (CreateBilling env w).2 =
        stepsWorld env 0 (dueInstallments w.store env.findNow)
          ⟨w.store, w.calls ++ [Call.FindDueInstallments]⟩ ∧
      (CreateBilling env w).2.store.installments = w.store.installments ∧
      (CreateBilling env w).2.store.payments = w.store.payments) ∧
    (∀ j dj e, (dueInstallments w.store env.findNow)[j]? = some dj →
      (∀ t d, t ≤ j → (dueInstallments w.store env.findNow)[t]? = some d →
        d.TermNumber - 1 ≤ ((loanRows w.store d.LoanID).length : Int)) →
      (∀ t, t < j → (env.step t).saveFault = none) → (env.step j).saveFault = some e →
      (CreateBilling env w).1 =
        Run.done (((List.range j).countP
          (fun t => (env.step t).notifyError.isNone && (env.step t).markFault.isNone)),
          some e) ∧
      (CreateBilling env w).2.store.billings.length = w.store.billings.length + j ∧
      (∀ t d, t < j → (dueInstallments w.store env.findNow)[t]? = some d →
        (CreateBilling env w).2.store.billings[w.store.billings.length + t]? =
          some { ID := (env.step t).uuid, InstallmentID := d.ID, Amount := d.AmountDue,
                 BillingDate := env.now, Status := BillingStatus.PendingBilling }) ∧
      savedBillings (CreateBilling env w).2.calls =
        savedBillings w.calls ++
          saveCallsFor env 0 ((dueInstallments w.store env.findNow).take (j + 1)) ∧
      (CreateBilling env w).2 =
        (SaveBilling (some e) (newBilling (env.step j).uuid env.now dj) dj.ID
          (updateDelinquencyStatus (env.step j).delinquency dj.LoanID dj.TermNumber
            (stepsWorld env 0 ((dueInstallments w.store env.findNow).take j)
              ⟨w.store, w.calls ++ [Call.FindDueInstallments]⟩)).2).2 ∧
      (CreateBilling env w).2.calls.getLast? =
        some (Call.SaveBilling (newBilling (env.step j).uuid env.now dj) dj.ID) ∧
      CreateBilling env w =
        billingLoop env ((dueInstallments w.store env.findNow).take (j + 1)) 0 0
          ⟨w.store, w.calls ++ [Call.FindDueInstallments]⟩ ∧
      (CreateBilling env w).2.store.installments = w.store.installments ∧
      (CreateBilling env w).2.store.payments = w.store.payments) := by
  have hcb : CreateBilling env w =
      billingLoop env (dueInstallments w.store env.findNow) 0 0
        ⟨w.store, w.calls ++ [Call.FindDueInstallments]⟩ := by
    unfold CreateBilling
    rw [FindDueInstallments_ok env w hfind]
  obtain ⟨j', ids, hj', hsave, hb, hout⟩ := CreateBilling_spec env w hfind
  obtain ⟨hlen, hget⟩ := billings_shape env w.store.billings ids _ j' hj' _ hb
  have hcomp : (fun t => (env.step t).notifyError.isNone && (env.step t).markFault.isNone) =
      stepCompleted env := by
    funext t
    rfl
  rw [hcomp]
  constructor
  · intro hreach hall
    have hworld : (CreateBilling env w).2 =
        stepsWorld env 0 (dueInstallments w.store env.findNow)
          ⟨w.store, w.calls ++ [Call.FindDueInstallments]⟩ := by
      have := billingLoop_append env (dueInstallments w.store env.findNow) [] 0 0
        ⟨w.store, w.calls ++ [Call.FindDueInstallments]⟩ hreach
        (fun t ht => by simpa using hall t ht)
      rw [List.append_nil] at this
      rw [hcb, this]
      rfl
    have hfr := stepsWorld_frame env (dueInstallments w.store env.findNow) 0
      ⟨w.store, w.calls ++ [Call.FindDueInstallments]⟩
    rcases hout with ⟨hend, hres, hcalls⟩ | ⟨e, hlt, hfault, _, _⟩ | ⟨d, w0, hd, hw0, hp, _⟩
    · subst hend
      refine ⟨hres, hlen, ?_, hcalls, hworld, by rw [hworld]; exact hfr.1,
        by rw [hworld]; exact hfr.2⟩
      intro t d hd
      exact hget t d (List.getElem?_eq_some.mp hd).1 hd
    · rw [hall j' hlt] at hfault
      cases hfault
    · exact absurd hp (no_panic_of_reach _ w w0 d
        (hreach d (List.mem_iff_getElem?.mpr ⟨j', hd⟩)) hw0)
  · intro j dj e hdj hreach hbefore hfail
    have hjlt : j < (dueInstallments w.store env.findNow).length :=
      (List.getElem?_eq_some.mp hdj).1
    have hjj : j' = j := by
      rcases Nat.lt_trichotomy j' j with hlt | heq | hgt
      · exfalso
        rcases hout with ⟨hend, _, _⟩ | ⟨e', _, hfault, _, _⟩ | ⟨d, w0, hd, hw0, hp, _⟩
        · omega
        · rw [hbefore j' hlt] at hfault
          cases hfault
        · exact absurd hp (no_panic_of_reach _ w w0 d (hreach j' d (by omega) hd) hw0)
      · exact heq
      · exfalso
        rw [hsave j hgt] at hfail
        cases hfail
    subst hjj
    have hpre : ∀ d ∈ (dueInstallments w.store env.findNow).take j',
        d.TermNumber - 1 ≤
          ((loanRows (⟨w.store, w.calls ++ [Call.FindDueInstallments]⟩ : World).store
            d.LoanID).length : Int) := by
      intro d hd
      obtain ⟨t, ht⟩ := List.mem_iff_getElem?.mp hd
      have htlt : t < j' := by
        have := (List.getElem?_eq_some.mp ht).1
        simp at this
        omega
      rw [List.getElem?_take_of_lt htlt] at ht
      exact hreach t d (by omega) ht
    have hlenpre : ((dueInstallments w.store env.findNow).take j').length = j' := by
      simp
      omega
    have hfr := stepsWorld_frame env ((dueInstallments w.store env.findNow).take j') 0
      ⟨w.store, w.calls ++ [Call.FindDueInstallments]⟩
    have hnp : (updateDelinquencyStatus (env.step j').delinquency dj.LoanID dj.TermNumber
        (stepsWorld env 0 ((dueInstallments w.store env.findNow).take j')
          ⟨w.store, w.calls ++ [Call.FindDueInstallments]⟩)).1 ≠ Run.panic :=
      no_panic_of_reach _ w _ dj (hreach j' dj (le_refl _) hdj) hfr.1
    have hrun : ∀ rest : List Installment,
        billingLoop env ((dueInstallments w.store env.findNow).take j' ++ dj :: rest) 0 0
          ⟨w.store, w.calls ++ [Call.FindDueInstallments]⟩ =
        (Run.done (0 + completedFrom env 0 j', some e),
          (SaveBilling (some e) (newBilling (env.step j').uuid env.now dj) dj.ID
            (updateDelinquencyStatus (env.step j').delinquency dj.LoanID dj.TermNumber
              (stepsWorld env 0 ((dueInstallments w.store env.findNow).take j')
                ⟨w.store, w.calls ++ [Call.FindDueInstallments]⟩)).2).2) := by
      intro rest
      have := billingLoop_append env ((dueInstallments w.store env.findNow).take j')
        (dj :: rest) 0 0 ⟨w.store, w.calls ++ [Call.FindDueInstallments]⟩ hpre
        (fun t ht => by
          rw [hlenpre] at ht
          simpa using hbefore t ht)
      rw [this, hlenpre]
      simp only [Nat.zero_add]
      rw [billingLoop_step_fail env dj rest j' _ _ e hnp hfail]
    have hfull := hrun ((dueInstallments w.store env.findNow).drop (j' + 1))
    rw [← take_append_getElem_drop _ j' dj hdj, ← hcb] at hfull
    have htrunc := hrun []
    rw [← take_succ_of_getElem _ j' dj hdj] at htrunc
    have hworld : (CreateBilling env w).2 =
        (SaveBilling (some e) (newBilling (env.step j').uuid env.now dj) dj.ID
          (updateDelinquencyStatus (env.step j').delinquency dj.LoanID dj.TermNumber
            (stepsWorld env 0 ((dueInstallments w.store env.findNow).take j')
              ⟨w.store, w.calls ++ [Call.FindDueInstallments]⟩)).2).2 := by
      rw [hfull]
    obtain ⟨f1, _, f3, _⟩ := updateDelinquencyStatus_frame (env.step j').delinquency
      dj.LoanID dj.TermNumber
      (stepsWorld env 0 ((dueInstallments w.store env.findNow).take j')
        ⟨w.store, w.calls ++ [Call.FindDueInstallments]⟩)
    rcases hout with ⟨hend, _, _⟩ | ⟨e', _, hfault, hres, hcalls⟩ | ⟨d, w0, hd, hw0, hp, _⟩
    · omega
    · rw [hfail] at hfault
      cases hfault
      refine ⟨hres, hlen, hget, hcalls, hworld, ?_, ?_, ?_, ?_⟩
      · rw [hworld]
        simp [SaveBilling, World.log]
      · rw [hfull, htrunc]
      · rw [hworld]
        simp only [SaveBilling, World.log]
        rw [f1, hfr.1]
      · rw [hworld]
        simp only [SaveBilling, World.log]
        rw [f3, hfr.2]
    · rw [hdj] at hd
      cases hd
      exact absurd hp (no_panic_of_reach _ w w0 _ (hreach j' _ (le_refl _) hdj) hw0)

theorem cycle_due :
    dueInstallments cycleWorld.store 16 =
      [⟨"i3", "L", 3, 110000, 21, 16, InstallmentStatus.Pending⟩,
       ⟨"m1", "M", 1, 50, 21, 16, InstallmentStatus.Pending⟩] := by
  simp [dueInstallments, dueRows, scanDue, cycleWorld, demoInstallments]

theorem cycle_reach (d : Installment) (hd : d ∈ dueInstallments cycleWorld.store 16) :
    d.TermNumber - 1 ≤ ((loanRows cycleWorld.store d.LoanID).length : Int) := by
  rw [cycle_due] at hd
  simp only [List.mem_cons, List.mem_singleton, List.not_mem_nil, or_false] at hd
  rcases hd with rfl | rfl <;>
    simp [loanRows, cycleWorld, demoInstallments]

/-- Witness of the amended C8: two installments are due. In one run the
notifier fails for the second: both billings are persisted and the count is 1.
In another run persisting the second billing fails: the error is returned with
count 1 and the failing SaveBilling call is the last repository call. -/
theorem C8_amended_billing_cycle_counts_and_aborts_witness :
    ((CreateBilling cycleEnv cycleWorld).1 = Run.done (1, none) ∧
      (CreateBilling cycleEnv cycleWorld).2.store.billings.length = 2) ∧
    ((CreateBilling cycleFailingEnv cycleWorld).1 = Run.done (1, some "insert failed") ∧
      (CreateBilling cycleFailingEnv cycleWorld).2.store.billings.length = 1 ∧
      (CreateBilling cycleFailingEnv cycleWorld).2.calls.getLast? =
        some (Call.SaveBilling ⟨"n2", "m1", 50, 16, BillingStatus.PendingBilling⟩ "m1")) :=
  ⟨match (C8_amended_billing_cycle_counts_and_aborts cycleEnv cycleWorld rfl).1 cycle_reach
      (fun _ _ => rfl) with
    | ⟨h1, h2, _⟩ => ⟨by
        rw [h1]
        show Run.done (((List.range (dueInstallments cycleWorld.store 16).length).countP
          (fun t => (cycleEnv.step t).notifyError.isNone &&
            (cycleEnv.step t).markFault.isNone)), none) = Run.done (1, none)
        rw [cycle_due]
        decide, by
        rw [h2]
        show cycleWorld.store.billings.length + (dueInstallments cycleWorld.store 16).length = 2
        rw [cycle_due]
        rfl⟩,
   match (C8_amended_billing_cycle_counts_and_aborts cycleFailingEnv cycleWorld rfl).2 1
      ⟨"m1", "M", 1, 50, 21, 16, InstallmentStatus.Pending⟩ "insert failed"
      (by
        show (dueInstallments cycleWorld.store 16)[1]? = _
        rw [cycle_due]
        rfl)
      (fun t d _ hd => cycle_reach d (List.mem_iff_getElem?.mpr ⟨t, hd⟩))
      (fun t ht => by
        have : t = 0 := by omega
        subst this
        rfl)
      rfl with
    | ⟨h1, h2, _, _, _, h6, _⟩ => ⟨by rw [h1]; decide, by rw [h2]; rfl, by rw [h6]; rfl⟩⟩

/-- In every reachable state no billing row exists and no installment row has
a billing lead date stored. -/
theorem reachable_unbilled (w : World) (h : Reachable w) :
    w.store.billings = [] ∧ ∀ r ∈ w.store.installments, r.billed_date = none := by
  induction h with
  | empty => exact ⟨rfl, fun r hr => by simp [emptyWorld] at hr⟩
  | createLoan env customerID principal rate term termType w _ hdef ih =>
    unfold CreateLoan SaveLoan
    by_cases hneg : term < 0
    · simpa [hneg] using ih
    · cases hf : env.saveFault with
      | some e => simpa [hneg, hf, World.log] using ih
      | none =>
        simp only [hneg, if_false, hf, World.log]
        refine ⟨ih.1, ?_⟩
        intro r hr
        simp only [List.mem_append, List.mem_map] at hr
        rcases hr with hr | ⟨d, _, rfl⟩
        · exact ih.2 r hr
        · simp [insertedRow, hdef]
  | createBilling env w _ ih =>
    have hdue : dueInstallments w.store env.findNow = [] := by
      unfold dueInstallments dueRows
      rw [List.map_eq_nil_iff, List.filter_eq_nil_iff]
      intro r hr
      simp [ih.2 r hr]
    have : (CreateBilling env w).2.store = w.store := by
      unfold CreateBilling FindDueInstallments
      cases env.findFault with
      | some e => simp [World.log]
      | none => simp [World.log, hdue, billingLoop]
    rw [this]
    exact ih
  | makePayment env loanID paymentAmount w _ ih =>
    have hnil : unpaidBillings w.store loanID = [] := by
      unfold unpaidBillings unpaidJoin
      simp [ih.1]
    rw [(MakePayment_noop env loanID paymentAmount w (Or.inr hnil)).1]
    exact ih

/-- C6. In every state reached from the empty store by any sequence of
CreateLoan, CreateBilling and MakePayment calls, with any arguments, clock
values and errors, every installment has at most one Billing record, and a
further run of the billing cycle at any clock value creates no Billing, so
that every installment still has at most one. (SaveLoan does not write column
billed_date, FindDueInstallments selects on it, so in such a state no
installment is returned as due and no Billing exists.) -/
theorem C6_at_most_one_billing_per_installment (w : World) (h : Reachable w) :
    (∀ x, billingCount x w.store.billings ≤ 1) ∧
    (∀ env : BillingEnv,
      (CreateBilling env w).2.store.billings = w.store.billings ∧
      ∀ x, billingCount x (CreateBilling env w).2.store.billings ≤ 1) ∧
    (∀ now, dueInstallments w.store now = []) ∧
    w.store.billings = [] := by
  have hinv := reachable_unbilled w h
  have hnext := fun env => reachable_unbilled _ (Reachable.createBilling env w h)
  refine ⟨fun x => by simp [billingCount, hinv.1], fun env => ⟨?_, fun x => ?_⟩, fun now => ?_,
    hinv.1⟩
  · rw [(hnext env).1, hinv.1]
  · simp [billingCount, (hnext env).1]
  · unfold dueInstallments dueRows
    rw [List.map_eq_nil_iff, List.filter_eq_nil_iff]
    intro r hr
    simp [hinv.2 r hr]

/-- Witness of C6: a loan of three terms is created in the empty store and the
billing cycle runs twice at the lead date of the first installment. -/
theorem C6_at_most_one_billing_per_installment_witness :
    billingCount ""
      (CreateBilling (runAt (2 * nsPerDay) "b2")
        (CreateBilling (runAt (2 * nsPerDay) "b1")
          (CreateLoan utcLoanEnv "c" 300 0 3 TermType.Weekly emptyWorld).2).2).2.store.billings
      ≤ 1 :=
  (C6_at_most_one_billing_per_installment _
    (Reachable.createBilling _ _
      (Reachable.createBilling _ _
        (Reachable.createLoan utcLoanEnv "c" 300 0 3 TermType.Weekly emptyWorld
          Reachable.empty rfl)))).1 ""

end Bms
